import Mathlib

/-!
Verification model of the `viber-coder` terminal calendar (Go, Bubbletea).

The file shallowly embeds the program in Lean:
* a model of the proleptic-Gregorian date normalization performed by Go's
  `time.Date` / `Time.AddDate` (the only parts of the `time` package the
  calendar touches), on top of which the source's `daysIn`, `adjustDay`,
  `adjustMonth`, `adjustYear` and `clampDay` are literal translations;
* the picker input handlers (`handleYearRunes`, `handleMonthRunes`,
  `handlePickerInput`), the calendar-selection handler
  (`handleCalendarViewInput`) and the top-level `Update` step of `main.go`,
  with file-system and network effects made explicit (an `Env` input for
  reads, an `Effects` record for writes, and an `Option Cmd` result);
* the `gcal` package's `LoadEventsCache` and `FetchAllMonthsEvents` /
  `syncEvents`, with the remote calendar service as an oracle parameter.

Integer-valued Go quantities (years, months, days, cursors, widths,
nanosecond durations) are modelled as `Int`; Go strings used as digit
buffers are modelled as `List Char` (the buffers only ever hold ASCII).
-/

namespace ViberCal

/-! ## Go `time` package model: proleptic Gregorian calendar

Go's `time.Date(y, m, d, ...)` first normalizes the month into `1..12`
(carrying into the year), then interprets the (possibly out-of-range) day
as an offset from the first of that month, converting through an absolute
day count.  `fromAbs`/`toAbs` below are that conversion, written with
explicit greedy year/month scans inside one 400-year Gregorian era
(146097 days) so that their correctness is provable by induction. -/

/-- Go `isLeap`: `year%4 == 0 && (year%100 != 0 || year%400 == 0)`.
Go's `%` is truncating, but comparison with `0` makes it agree with
Euclidean `%`, so Lean's `Int.emod` is faithful here. -/
def isLeap (y : Int) : Bool :=
  y % 4 == 0 && (y % 100 != 0 || y % 400 == 0)

/-- Leap test for a year-of-era index `0..399` (year `400*q + yoe` is leap
iff `isLeapN yoe`). -/
def isLeapN (y : Nat) : Bool :=
  y % 4 == 0 && (y % 100 != 0 || y % 400 == 0)

/-- Length of month `m` (`1..12`; `0` for indices outside the calendar,
which the scans never reach). -/
def monthLenN (leap : Bool) : Nat → Nat
  | 1 => 31
  | 2 => if leap then 29 else 28
  | 3 => 31
  | 4 => 30
  | 5 => 31
  | 6 => 30
  | 7 => 31
  | 8 => 31
  | 9 => 30
  | 10 => 31
  | 11 => 30
  | 12 => 31
  | _ => 0

/-- Length of the year with year-of-era index `y`. -/
def yearLenN (y : Nat) : Nat := if isLeapN y then 366 else 365

/-- Cumulative sum `len 0 + len 1 + ... + len (j-1)` of a segment-length
function; used with `yearLenN` (days before a year-of-era) and
`monthLenN` (days before a month, since `monthLenN leap 0 = 0`). -/
def segCum (len : Nat → Nat) : Nat → Nat
  | 0 => 0
  | j + 1 => segCum len j + len j

/-- Greedy scan locating offset `r` inside consecutive segments starting at
index `i`: returns the segment index and the remainder inside it. -/
def findSeg (len : Nat → Nat) : Nat → Nat → Nat → Nat × Nat
  | i, r, 0 => (i, r)
  | i, r, fuel + 1 =>
    if r < len i then (i, r) else findSeg len (i + 1) (r - len i) fuel

/-- A calendar date as Go's `(Year(), Month(), Day())` triple. -/
structure Date where
  year : Int
  month : Int
  day : Int
deriving DecidableEq

/-- Absolute day index of January 1 of year `y` (day 0 = January 1 of year
0 of the era decomposition; only differences of `toAbs`/`fromAbs` values
matter). -/
def absOfYear (y : Int) : Int :=
  y / 400 * 146097 + (segCum yearLenN (y % 400).toNat : Int)

/-- Absolute day index of `(y, m, d)` for a normalized month `m ∈ 1..12`
and an arbitrary (possibly out-of-range) day `d`, exactly as Go builds its
absolute time: days before the year, plus days before the month, plus
`d - 1`. -/
def toAbs (y m d : Int) : Int :=
  absOfYear y + (segCum (monthLenN (isLeap y)) m.toNat : Int) + (d - 1)

/-- Civil date of an absolute day index: split off the 400-year era, then
scan years and months. -/
def fromAbs (n : Int) : Date :=
  let q := n / 146097
  let doe := (n % 146097).toNat
  let yd := findSeg yearLenN 0 doe 400
  let md := findSeg (monthLenN (isLeapN yd.1)) 1 yd.2 12
  ⟨q * 400 + (yd.1 : Int), (md.1 : Int), (md.2 : Int) + 1⟩

/-- Go's month normalization in `time.Date`: fold an arbitrary month into
`1..12`, carrying whole years. -/
def normMonth (y m : Int) : Int × Int :=
  (y + (m - 1) / 12, (m - 1) % 12 + 1)

/-- `goDate y m d` is the `(Year(), Month(), Day())` of Go's
`time.Date(y, time.Month(m), d, ...)`: normalize the month, then normalize
the day through the absolute day count. -/
def goDate (y m d : Int) : Date :=
  let p := normMonth y m
  fromAbs (toAbs p.1 p.2 d)

/-- A `(year, month, day)` triple that denotes a real calendar day. -/
def ValidDate (y m d : Int) : Prop :=
  1 ≤ m ∧ m ≤ 12 ∧ 1 ≤ d ∧ d ≤ (monthLenN (isLeap y) m.toNat : Int)

/-! ## Data model (`main.go`, `gcal/events.go`, `gcal/cache.go`, `gcal/config.go`)

Go maps keyed by month / day are modelled as association lists in key
insertion order (Go map iteration order is unspecified; none of the
verified properties depends on ordering).  `gcal.Event` carries several
payload strings (`ID`, `Description`, `Location`, times, `Color`) that the
program only ever stores and renders; the model keeps the fields the
control flow actually reads plus the bucketing key of `StartTime`. -/

/-- The modelled part of `gcal.Event`. -/
structure Event where
  calendarId : String
  calendarName : String
  summary : String
  startMonth : Int
  startDay : Int
deriving DecidableEq

/-- Lookup in an `Int`-keyed Go map (association-list model). -/
def getA {β : Type} (l : List (Int × β)) (k : Int) : Option β :=
  match l with
  | [] => none
  | (k1, v) :: t => if k1 = k then some v else getA t k

/-- Insert / overwrite in an `Int`-keyed Go map (association-list model). -/
def setA {β : Type} (l : List (Int × β)) (k : Int) (v : β) : List (Int × β) :=
  match l with
  | [] => [(k, v)]
  | (k1, v1) :: t => if k1 = k then (k, v) :: t else (k1, v1) :: setA t k v

/-- Go `map[int][]Event` (events of one month, keyed by day). -/
abbrev DayMap := List (Int × List Event)

/-- Go `map[time.Month]map[int][]Event`. -/
abbrev EventStore := List (Int × DayMap)

instance : DecidableEq DayMap := inferInstance

instance : DecidableEq EventStore := inferInstance

/-- Read of Go `map[string]bool` (missing key reads `false`). -/
def getS (l : List (String × Bool)) (k : String) : Bool :=
  match l with
  | [] => false
  | (k1, v) :: t => if k1 = k then v else getS t k

/-- Write to Go `map[string]bool`. -/
def setS (l : List (String × Bool)) (k : String) (v : Bool) : List (String × Bool) :=
  match l with
  | [] => [(k, v)]
  | (k1, v1) :: t => if k1 = k then (k, v) :: t else (k1, v1) :: setS t k v

/-- `calendarState` from `main.go`. -/
structure calendarState where
  year : Int
  month : Int
  day : Int
  events : EventStore
deriving DecidableEq

/-! ## Date arithmetic from `main.go` -/

/-- Go `daysIn(year, month)`: `time.Date(year, month+1, 0, ...).Day()`. -/
def daysIn (year month : Int) : Int := (goDate year (month + 1) 0).day

/-- Go `adjustDay`: rebuild the date and `AddDate(0, 0, delta)`. -/
def adjustDay (s : calendarState) (delta : Int) : calendarState :=
  let t := goDate s.year s.month (s.day + delta)
  { s with year := t.year, month := t.month, day := t.day }

/-- Go `adjustMonth`: rebuild the date and `AddDate(0, delta, 0)`. -/
def adjustMonth (s : calendarState) (delta : Int) : calendarState :=
  let t := goDate s.year (s.month + delta) s.day
  { s with year := t.year, month := t.month, day := t.day }

/-- Go `adjustYear`: rebuild the date and `AddDate(delta, 0, 0)`. -/
def adjustYear (s : calendarState) (delta : Int) : calendarState :=
  let t := goDate (s.year + delta) s.month s.day
  { s with year := t.year, month := t.month, day := t.day }

/-- Go `clampDay`. -/
def clampDay (s : calendarState) : calendarState :=
  let days := daysIn s.year s.month
  let s1 := if s.day > days then { s with day := days } else s
  if s1.day < 1 then { s1 with day := 1 } else s1

/-! ## `gcal` package: config, cache, fetch -/

/-- `gcal.Config`. -/
structure Config where
  calendarIDs : List String
deriving DecidableEq

/-- `gcal.LoadConfig`, as a function of the decoded config file
(`none` = file missing, unreadable or undecodable): every error path and
the empty-list case fall back to the single default identifier. -/
def LoadConfig (file : Option Config) : Config :=
  match file with
  | none => ⟨["primary"]⟩
  | some c => if c.calendarIDs = [] then ⟨["primary"]⟩ else c

/-- `gcal.EventCache`, the decoded `events_cache.json` record.  The
timestamp is in nanoseconds, like Go `time.Time` differences. -/
structure EventCache where
  year : Int
  events : EventStore
  timestamp : Int
deriving DecidableEq

/-- `24 * time.Hour` in nanoseconds. -/
def h24 : Int := 86400000000000

/-- `gcal.LoadEventsCache(year)`, as a function of the decoded cache file
(`none` = missing/unreadable/undecodable, which the code treats alike) and
of `time.Now()` in nanoseconds.  Returns Go's `(map, bool)` pair with the
`nil` map modelled as `none`. -/
def LoadEventsCache (disk : Option EventCache) (nowNanos : Int) (year : Int) :
    Option EventStore × Bool :=
  match disk with
  | none => (none, false)
  | some c =>
    if c.year ≠ year then (none, false)
    else if nowNanos - c.timestamp > h24 then (some c.events, false)
    else (some c.events, true)

/-- One `*calendar.Event` item of a list response, reduced to what the
fetch loop inspects: `parsed = some (month, day)` is the bucketing key of
the parsed `StartTime` (an item with empty date strings parses to Go's
zero time, i.e. `(1, 1)`); `parsed = none` stands for a start or end
timestamp that fails to parse, which makes the loop `continue` without
storing the item. -/
structure Item where
  summary : String
  parsed : Option (Int × Int)
deriving DecidableEq

/-- The remote Google-Calendar service for one queried year, as an oracle:
`name` is the display name resolved via `Calendars.Get` (falling back to
the id itself when that lookup fails), `events` is the year-scoped
`Events.List` call per calendar id. -/
structure Remote where
  name : String → String
  events : String → Except String (List Item)

/-- Append an event under `(month, day)`, creating the month bucket on
demand, exactly like the `allEvents[month] == nil` check in the source. -/
def insertStore (st : EventStore) (mo dy : Int) (e : Event) : EventStore :=
  let dayMap := (getA st mo).getD []
  let dayEvents := (getA dayMap dy).getD []
  setA st mo (setA dayMap dy (dayEvents ++ [e]))

/-- The inner item loop of `FetchAllMonthsEvents`: bucket each parsed
item under its start month and day, skipping parse failures. -/
def storeItems (calID : String) (r : Remote) (st : EventStore)
    (items : List Item) : EventStore :=
  items.foldl
    (fun st it =>
      match it.parsed with
      | none => st
      | some md =>
        insertStore st md.1 md.2 ⟨calID, r.name calID, it.summary, md.1, md.2⟩)
    st

/-- One iteration of the calendar loop of `FetchAllMonthsEvents`: a failed
fetch records `lastErr` and contributes nothing; a successful one buckets
its items. -/
def fetchStep (r : Remote) (acc : EventStore × Option String)
    (calID : String) : EventStore × Option String :=
  match r.events calID with
  | .error e => (acc.1, some e)
  | .ok items => (storeItems calID r acc.1 items, acc.2)

/-- `gcal.FetchAllMonthsEvents(srv, calendarIDs, year)`.  `srvOk` models
`srv != nil`; the year only scopes the remote query and is folded into
`Remote`.  Returns the aggregated store and the error value: the error is
surfaced only when `len(allEvents) == 0 && lastErr != nil`. -/
def FetchAllMonthsEvents (srvOk : Bool) (calendarIDs : List String)
    (r : Remote) : EventStore × Option String :=
  if !srvOk then ([], some "calendar service is nil")
  else if calendarIDs = [] then ([], none)
  else
    if (calendarIDs.foldl (fetchStep r) ([], none)).1 = [] ∧
        (calendarIDs.foldl (fetchStep r) ([], none)).2 ≠ none then
      ((calendarIDs.foldl (fetchStep r) ([], none)).1,
        (calendarIDs.foldl (fetchStep r) ([], none)).2)
    else ((calendarIDs.foldl (fetchStep r) ([], none)).1, none)

/-- `r` with every failing calendar replaced by an empty success; used to
state that failures do not affect the aggregated store. -/
def okRemote (r : Remote) : Remote :=
  ⟨r.name, fun id =>
    match r.events id with
    | .error _ => .ok []
    | .ok l => .ok l⟩

/-- The message value produced by the `syncEvents` command in `main.go`
(`events = none` models the `nil` events map). -/
def syncEvents (srvOk : Bool) (calendarIDs : List String) (_year : Int)
    (r : Remote) : Option EventStore × Option String :=
  if !srvOk then (none, some "calendar service not initialized")
  else if calendarIDs = [] then (some [], none)
  else
    match FetchAllMonthsEvents srvOk calendarIDs r with
    | (_, some e) => (some [], some e)
    | (events, none) => (some events, none)

/-! ## Picker state and digit parsing (`main.go`) -/

/-- Go `strconv.Atoi`, restricted to what can reach it here: an optional
sign followed by decimal digits; errors (`none`) on the empty string, a
bare sign, or any non-digit character.  Overflow is not modelled. -/
def parseNatDigits (cs : List Char) : Option Nat :=
  match cs with
  | [] => none
  | _ => cs.foldl
      (fun a c =>
        match a with
        | none => none
        | some n => if c.isDigit then some (10 * n + (c.toNat - 48)) else none)
      (some 0)

/-- `strconv.Atoi` on a buffer. -/
def Atoi (cs : List Char) : Option Int :=
  match cs with
  | [] => none
  | c :: rest =>
    if c = '-' then (parseNatDigits rest).map (fun n => -(n : Int))
    else if c = '+' then (parseNatDigits rest).map (fun n => (n : Int))
    else (parseNatDigits cs).map (fun n => (n : Int))

/-- `pickerType` with its three constants. -/
inductive pickerType where
  | pickerNone
  | pickerYear
  | pickerMonth
deriving DecidableEq

/-- `pickerState` from `main.go`. -/
structure pickerState where
  active : pickerType
  yearCursor : Int
  monthCursor : Int
  yearBuffer : List Char
  monthBuffer : List Char
deriving DecidableEq

/-- `(*pickerState).openYear`. -/
def openYear (p : pickerState) (year : Int) : pickerState :=
  { p with
    active := .pickerYear
    yearCursor := year
    yearBuffer := []
    monthBuffer := [] }

/-- `(*pickerState).openMonth`. -/
def openMonth (p : pickerState) (month : Int) : pickerState :=
  { p with
    active := .pickerMonth
    monthCursor := month - 1
    monthBuffer := []
    yearBuffer := [] }

/-- `(*pickerState).close`. -/
def closePicker (p : pickerState) : pickerState :=
  { p with active := .pickerNone, yearBuffer := [], monthBuffer := [] }

/-- Go `trimLastRune` (the buffers hold only ASCII, so dropping the last
character matches dropping the last rune). -/
def trimLastRune (s : List Char) : List Char := s.dropLast

/-- The `len(monthBuffer) > 2` truncation step of `handleMonthRunes`. -/
def lastTwo (s : List Char) : List Char :=
  if s.length > 2 then s.drop (s.length - 2) else s

/-- Go `handleYearRunes`. -/
def handleYearRunes (p : pickerState) (runes : List Char) : pickerState :=
  let buf := runes.foldl
    (fun b r => if r.isDigit || (r == '-' && b.isEmpty) then b ++ [r] else b)
    p.yearBuffer
  let p1 := { p with yearBuffer := buf }
  if buf = [] then p1
  else
    match Atoi buf with
    | some v => { p1 with yearCursor := v }
    | none => p1

/-- Go `handleMonthRunes`. -/
def handleMonthRunes (p : pickerState) (runes : List Char) : pickerState :=
  let buf := runes.foldl
    (fun b r => if r.isDigit then lastTwo (b ++ [r]) else b)
    p.monthBuffer
  let p1 := { p with monthBuffer := buf }
  if buf = [] then p1
  else
    match Atoi buf with
    | some v => if 1 ≤ v ∧ v ≤ 12 then { p1 with monthCursor := v - 1 } else p1
    | none => p1

/-! ## Keys, messages, commands (`bubbletea` boundary) -/

/-- A `tea.KeyMsg`: printable keys arrive as `KeyRunes`, the rest as
distinct key types.  Only keys the program inspects are enumerated. -/
inductive Key where
  | runes (rs : List Char)
  | esc
  | enter
  | backspace
  | ctrlH
  | up
  | down
  | left
  | right
  | pgup
  | pgdown
  | ctrlC
deriving DecidableEq

/-- `msg.String()`. -/
def keyString : Key → String
  | .runes rs => String.mk rs
  | .esc => "esc"
  | .enter => "enter"
  | .backspace => "backspace"
  | .ctrlH => "ctrl+h"
  | .up => "up"
  | .down => "down"
  | .left => "left"
  | .right => "right"
  | .pgup => "pgup"
  | .pgdown => "pgdown"
  | .ctrlC => "ctrl+c"

/-- The `tea.Msg` values `Update` handles: window sizes, keystrokes, and
`syncEventsMsg` completions (`events = none` models a `nil` map). -/
inductive Msg where
  | windowSize (width : Int)
  | key (k : Key)
  | syncDone (events : Option EventStore) (err : Option String)
deriving DecidableEq

/-- A `tea.Cmd` returned by `Update`: `tea.Quit`, or a `syncEvents`
command carrying the calendar ids and year captured at launch time. -/
inductive Cmd where
  | quit
  | sync (ids : List String) (year : Int)
deriving DecidableEq

/-- `eventViewState` from `main.go`. -/
structure eventViewState where
  active : Bool
  events : List Event
deriving DecidableEq

/-- A `*calendar.CalendarListEntry`, reduced to the fields read. -/
structure CalendarListEntry where
  id : String
  summary : String
deriving DecidableEq

/-- `calendarViewState` from `main.go` (the `selected` Go map as an
association list). -/
structure calendarViewState where
  active : Bool
  calendars : List CalendarListEntry
  selected : List (String × Bool)
  cursor : Int
deriving DecidableEq

/-- The `model` of `main.go`.  `hasSrv` models `calendarSrv != nil`; the
`styles` field is pure rendering and omitted. -/
structure Model where
  state : calendarState
  width : Int
  picker : pickerState
  hasSrv : Bool
  eventView : eventViewState
  calendarView : calendarViewState
  syncing : Bool
  syncError : String
  config : Config
deriving DecidableEq

/-- The ambient inputs `Update` reads: `time.Now()` (the civil date used
by the `t` key and the `N`/`P` comparison, plus nanoseconds used by cache
freshness), the decoded cache file, and the `ListCalendars` response
(`none` = error). -/
structure Env where
  nowYear : Int
  nowMonth : Int
  nowDay : Int
  nowNanos : Int
  disk : Option EventCache
  calendarList : Option (List CalendarListEntry)
deriving DecidableEq

/-- The file-system writes `Update` performs, recorded explicitly:
`gcal.SaveConfig`, `gcal.ClearEventsCache`, `gcal.SaveEventsCache`. -/
structure Effects where
  savedConfig : Option Config
  clearedCache : Bool
  savedCache : Option (Int × EventStore)
deriving DecidableEq

/-- No file-system write. -/
def noEff : Effects := ⟨none, false, none⟩

/-- The value of one `Update` call: the new model, the returned
`tea.Cmd`, and the file-system writes performed on the way. -/
structure UpdateResult where
  model : Model
  cmd : Option Cmd
  effects : Effects
deriving DecidableEq

/-- `clampDay` applied before returning, as at the bottom of `Update`. -/
def finish (m : Model) : UpdateResult :=
  ⟨{ m with state := clampDay m.state }, none, noEff⟩

/-! ## Input handlers and the `Update` step (`main.go`) -/

/-- Go `handlePickerInput`.  The boolean is the handled flag; the model
carries the possibly mutated picker and calendar state. -/
def handlePickerInput (m : Model) (k : Key) : Model × Bool :=
  if m.picker.active = .pickerNone then (m, false)
  else
    match k with
    | .runes rs =>
      if rs.length > 0 then
        match m.picker.active with
        | .pickerYear => ({ m with picker := handleYearRunes m.picker rs }, true)
        | .pickerMonth => ({ m with picker := handleMonthRunes m.picker rs }, true)
        | .pickerNone => (m, true)
      else (m, true)
    | _ =>
      if keyString k = "backspace" ∨ keyString k = "ctrl+h" then
        match m.picker.active with
        | .pickerYear =>
          if m.picker.yearBuffer ≠ [] then
            match Atoi (trimLastRune m.picker.yearBuffer) with
            | some v =>
              ({ m with picker := { m.picker with
                  yearBuffer := trimLastRune m.picker.yearBuffer
                  yearCursor := v } }, true)
            | none =>
              ({ m with picker := { m.picker with
                  yearBuffer := trimLastRune m.picker.yearBuffer } }, true)
          else (m, true)
        | .pickerMonth =>
          if m.picker.monthBuffer ≠ [] then
            match Atoi (trimLastRune m.picker.monthBuffer) with
            | some v =>
              if 1 ≤ v ∧ v ≤ 12 then
                ({ m with picker := { m.picker with
                    monthBuffer := trimLastRune m.picker.monthBuffer
                    monthCursor := v - 1 } }, true)
              else
                ({ m with picker := { m.picker with
                    monthBuffer := trimLastRune m.picker.monthBuffer } }, true)
            | none =>
              ({ m with picker := { m.picker with
                  monthBuffer := trimLastRune m.picker.monthBuffer } }, true)
          else (m, true)
        | .pickerNone => (m, true)
      else if keyString k = "esc" then
        ({ m with picker := closePicker m.picker }, true)
      else if keyString k = "enter" then
        match m.picker.active with
        | .pickerYear =>
          ({ m with
            state := { m.state with year := m.picker.yearCursor }
            picker := closePicker m.picker }, true)
        | .pickerMonth =>
          ({ m with
            state := { m.state with month := m.picker.monthCursor + 1 }
            picker := closePicker m.picker }, true)
        | .pickerNone => ({ m with picker := closePicker m.picker }, true)
      else if keyString k = "up" ∨ keyString k = "k" then
        if m.picker.active = .pickerYear then
          ({ m with picker := { m.picker with
            yearCursor := m.picker.yearCursor - 1
            yearBuffer := [] } }, true)
        else if m.picker.active = .pickerMonth then
          ({ m with picker := { m.picker with
            monthCursor := (m.picker.monthCursor + 11).tmod 12
            monthBuffer := [] } }, true)
        else (m, true)
      else if keyString k = "down" ∨ keyString k = "j" then
        if m.picker.active = .pickerYear then
          ({ m with picker := { m.picker with
            yearCursor := m.picker.yearCursor + 1
            yearBuffer := [] } }, true)
        else if m.picker.active = .pickerMonth then
          ({ m with picker := { m.picker with
            monthCursor := (m.picker.monthCursor + 1).tmod 12
            monthBuffer := [] } }, true)
        else (m, true)
      else if keyString k = "pgup" then
        if m.picker.active = .pickerYear then
          ({ m with picker := { m.picker with
            yearCursor := m.picker.yearCursor - 10
            yearBuffer := [] } }, true)
        else (m, true)
      else if keyString k = "pgdown" then
        if m.picker.active = .pickerYear then
          ({ m with picker := { m.picker with
            yearCursor := m.picker.yearCursor + 10
            yearBuffer := [] } }, true)
        else (m, true)
      else if keyString k = "q" ∨ keyString k = "ctrl+c" then
        ({ m with picker := closePicker m.picker }, false)
      else (m, true)

/-- Result of `handleCalendarViewInput`: mutated model, file-system
effects, handled flag. -/
structure CVResult where
  model : Model
  effects : Effects
  handled : Bool
deriving DecidableEq

/-- The ids toggled on.  This stands for the
`for id, selected := range m.calendarView.selected` collection loop; Go
map iteration order is unspecified, the model uses insertion order. -/
def trueKeys (l : List (String × Bool)) : List String :=
  (l.filter (fun p => p.2)).map (fun p => p.1)

/-- The new calendar-id list computed by the "apply" branch: the ids
toggled on, or the single default identifier when none is. -/
def applyIDs (m : Model) : List String :=
  if trueKeys m.calendarView.selected = [] then ["primary"]
  else trueKeys m.calendarView.selected

/-- The mutations of the "apply" branch of `handleCalendarViewInput`:
install the new config, close the view, and set the syncing flag when the
service is available and no sync is in flight.  Paired with the
`SaveConfig` and `ClearEventsCache` writes the branch performs. -/
def applyCalendarSelection (m : Model) : Model × Effects :=
  (if m.hasSrv && !m.syncing then
    { m with
      config := ⟨applyIDs m⟩
      calendarView := { m.calendarView with active := false }
      syncing := true }
   else
    { m with
      config := ⟨applyIDs m⟩
      calendarView := { m.calendarView with active := false } },
   ⟨some ⟨applyIDs m⟩, true, none⟩)

/-- Go `handleCalendarViewInput`. -/
def handleCalendarViewInput (m : Model) (k : Key) : CVResult :=
  if keyString k = "esc" ∨ keyString k = "q" ∨ keyString k = "c" ∨ keyString k = "C" then
    ⟨{ m with calendarView := { m.calendarView with active := false } },
      noEff, true⟩
  else if keyString k = "up" ∨ keyString k = "k" then
    ⟨if m.calendarView.cursor > 0 then
        { m with calendarView :=
          { m.calendarView with cursor := m.calendarView.cursor - 1 } }
      else m, noEff, true⟩
  else if keyString k = "down" ∨ keyString k = "j" then
    ⟨if m.calendarView.cursor < (m.calendarView.calendars.length : Int) - 1 then
        { m with calendarView :=
          { m.calendarView with cursor := m.calendarView.cursor + 1 } }
      else m, noEff, true⟩
  else if keyString k = " " ∨ keyString k = "enter" then
    ⟨if m.calendarView.cursor < (m.calendarView.calendars.length : Int) then
        match m.calendarView.calendars.get? m.calendarView.cursor.toNat with
        | some cal =>
          { m with calendarView := { m.calendarView with
            selected := setS m.calendarView.selected cal.id
              (!(getS m.calendarView.selected cal.id)) } }
        | none => m
      else m, noEff, true⟩
  else if keyString k = "a" ∨ keyString k = "A" then
    ⟨(applyCalendarSelection m).1, (applyCalendarSelection m).2, true⟩
  else ⟨m, noEff, false⟩

/-- The `N`/`P` year-step branch of `Update`, including the cache-or-fetch
sequence (note the comparison against `time.Now().Year()`).  The first
mutation is `adjustYear`; on a cache hit or miss the events field of the
just-stepped state is then overwritten. -/
def yearStep (env : Env) (m : Model) (delta : Int) : UpdateResult :=
  if (adjustYear m.state delta).year ≠ env.nowYear then
    match (LoadEventsCache env.disk env.nowNanos (adjustYear m.state delta).year).1 with
    | some cachedEvents =>
      finish { m with state := { adjustYear m.state delta with events := cachedEvents } }
    | none =>
      if m.hasSrv && !m.syncing then
        ⟨{ m with
            state := { adjustYear m.state delta with events := [] }
            syncing := true },
          some (.sync m.config.calendarIDs (adjustYear m.state delta).year),
          noEff⟩
      else finish { m with state := { adjustYear m.state delta with events := [] } }
  else finish { m with state := adjustYear m.state delta }

/-- The `c`/`C` branch of `Update`: open the calendar-selection view from
a fresh `ListCalendars` call, seeding `selected` from the config. -/
def openCalView (env : Env) (m : Model) : Model :=
  if m.hasSrv && !m.calendarView.active then
    match env.calendarList with
    | some calendars =>
      { m with calendarView :=
        { active := true
          calendars := calendars
          selected := m.config.calendarIDs.foldl (fun acc id => setS acc id true) []
          cursor := 0 } }
    | none => m
  else m

/-- The `e`/`E` branch of `Update`: open the event view when the selected
day has events. -/
def openEventView (m : Model) : Model :=
  match getA m.state.events m.state.month with
  | some dayMap =>
    match getA dayMap m.state.day with
    | some dayEvents =>
      if dayEvents.length > 0 then
        { m with eventView := { active := true, events := dayEvents } }
      else m
    | none => m
  | none => m

/-- The main keystroke switch at the bottom of the `tea.KeyMsg` case. -/
def mainKeys (env : Env) (m : Model) (k : Key) : UpdateResult :=
  if keyString k = "ctrl+c" ∨ keyString k = "q" ∨ keyString k = "esc" then ⟨m, some .quit, noEff⟩
  else if keyString k = "left" ∨ keyString k = "h" then finish { m with state := adjustDay m.state (-1) }
  else if keyString k = "right" ∨ keyString k = "l" then finish { m with state := adjustDay m.state 1 }
  else if keyString k = "up" ∨ keyString k = "k" then finish { m with state := adjustDay m.state (-7) }
  else if keyString k = "down" ∨ keyString k = "j" then finish { m with state := adjustDay m.state 7 }
  else if keyString k = "n" then finish { m with state := adjustMonth m.state 1 }
  else if keyString k = "p" then finish { m with state := adjustMonth m.state (-1) }
  else if keyString k = "N" then yearStep env m 1
  else if keyString k = "P" then yearStep env m (-1)
  else if keyString k = "t" ∨ keyString k = "T" then
    finish { m with state := { m.state with
      year := env.nowYear
      month := env.nowMonth
      day := env.nowDay } }
  else if keyString k = "y" ∨ keyString k = "Y" then
    finish { m with picker :=
      (if m.picker.active = .pickerYear then closePicker m.picker
       else openYear m.picker m.state.year) }
  else if keyString k = "m" ∨ keyString k = "M" then
    finish { m with picker :=
      (if m.picker.active = .pickerMonth then closePicker m.picker
       else openMonth m.picker m.state.month) }
  else if keyString k = "s" ∨ keyString k = "S" then
    if m.hasSrv && !m.syncing then
      ⟨{ m with syncing := true },
        some (.sync m.config.calendarIDs m.state.year), noEff⟩
    else finish m
  else if keyString k = "c" ∨ keyString k = "C" then finish (openCalView env m)
  else if keyString k = "e" ∨ keyString k = "E" then finish (openEventView m)
  else finish m

/-- Continuation after the picker dispatch: handled keystrokes fall
through to the final `clampDay`, unhandled ones reach the main switch. -/
def afterPicker (env : Env) (pr : Model × Bool) (k : Key) : UpdateResult :=
  if pr.2 then finish pr.1 else mainKeys env pr.1 k

/-- Continuation after the calendar-view dispatch: a handled keystroke
returns immediately (no clamp), otherwise control reaches the picker. -/
def afterCalendarView (env : Env) (cv : CVResult) (k : Key) : UpdateResult :=
  if cv.handled then ⟨cv.model, none, cv.effects⟩
  else afterPicker env (handlePickerInput cv.model k) k

/-- The `tea.KeyMsg` case of `Update`: event view first, then calendar
view, then picker, then the main switch. -/
def updateKey (env : Env) (m : Model) (k : Key) : UpdateResult :=
  if m.eventView.active then
    if keyString k = "esc" ∨ keyString k = "e" ∨ keyString k = "q" then
      ⟨{ m with eventView := { m.eventView with active := false } }, none, noEff⟩
    else ⟨m, none, noEff⟩
  else
    afterCalendarView env
      (if m.calendarView.active then handleCalendarViewInput m k
       else ⟨m, noEff, false⟩) k

/-- `(model).Update` from `main.go`. -/
def Update (env : Env) (m : Model) (msg : Msg) : UpdateResult :=
  match msg with
  | .windowSize w => finish { m with width := w }
  | .key k => updateKey env m k
  | .syncDone events err =>
    let m1 := { m with syncing := false }
    match err with
    | some e => ⟨{ m1 with syncError := "Sync failed: " ++ e }, none, noEff⟩
    | none =>
      match events with
      | some es =>
        ⟨{ m1 with
            state := { m1.state with events := es }
            syncError := "" },
          none, ⟨none, false, some (m1.state.year, es)⟩⟩
      | none => ⟨{ m1 with syncError := "" }, none, noEff⟩

/-- Iterated `Update` steps: the Bubbletea message loop, one environment
snapshot per delivered message. -/
def run (m : Model) : List (Env × Msg) → Model
  | [] => m
  | em :: rest => run (Update em.1 m em.2).model rest

/-- `initialModel` from `main.go`, as a function of the startup reads
(config file, cache file, and the `GetCalendarService` outcome, where
`srvOk` models `srv != nil` and `authErr` the returned error). -/
def initialModel (env : Env) (configFile : Option Config) (srvOk : Bool)
    (authErr : Option String) : Model :=
  let config := LoadConfig configFile
  let cached := LoadEventsCache env.disk env.nowNanos env.nowYear
  let cachedEvents := cached.1.getD []
  let syncErr := match authErr with | some e => e | none => ""
  let shouldSync := srvOk && authErr.isNone && !cached.2
  { state :=
      { year := env.nowYear
        month := env.nowMonth
        day := env.nowDay
        events := cachedEvents }
    width := 0
    picker := ⟨.pickerNone, 0, 0, [], []⟩
    hasSrv := srvOk
    eventView := ⟨false, []⟩
    calendarView := ⟨false, [], [], 0⟩
    syncing := shouldSync
    syncError := syncErr
    config := config }

/-- `(model).Init` from `main.go`. -/
def Init (m : Model) : Option Cmd :=
  if m.hasSrv && m.syncing then
    some (.sync m.config.calendarIDs m.state.year)
  else none

/-- The calendar-position invariant of the spec: the selected day exists
in the selected `(year, month)`. -/
def Inv (s : calendarState) : Prop :=
  1 ≤ s.day ∧ s.day ≤ daysIn s.year s.month

instance (s : calendarState) : Decidable (Inv s) :=
  inferInstanceAs (Decidable (1 ≤ s.day ∧ s.day ≤ daysIn s.year s.month))

/-! ## Concrete fixtures used to instantiate the claims -/

/-- A closed picker in its zero state. -/
def pickerZero : pickerState := ⟨.pickerNone, 0, 0, [], []⟩

/-- A model in which every overlay is closed and the position is the
sample date 2024-05-20 with no events. -/
def sampleModel : Model :=
  ⟨⟨2024, 5, 20, []⟩, 0, pickerZero, false, ⟨false, []⟩,
    ⟨false, [], [], 0⟩, false, "", ⟨["primary"]⟩⟩

/-- A sample environment: the clock reads 2024-05-20, no cache file, no
calendar listing. -/
def sampleEnv : Env := ⟨2024, 5, 20, 0, none, none⟩

/-- A one-event store for June 10 of the tracked year. -/
def e25 : EventStore := [(6, [(10, [⟨"primary", "primary", "trip", 6, 10⟩])])]

/-- A one-event store for February 14 of the tracked year. -/
def e24 : EventStore := [(2, [(14, [⟨"primary", "primary", "dinner", 2, 14⟩])])]

/-- A cache file holding the year-2024 store `e24`, saved at time 0. -/
def cache24 : EventCache := ⟨2024, e24, 0⟩

/-- An environment whose clock year is 2024 and whose disk cache holds
`cache24`. -/
def env7 : Env := ⟨2024, 5, 20, 0, some cache24, none⟩

/-- A model positioned in 2025 displaying the 2025 store `e25`, with the
service connected and no sync in flight. -/
def m7 : Model :=
  ⟨⟨2025, 5, 20, e25⟩, 0, pickerZero, true, ⟨false, []⟩,
    ⟨false, [], [], 0⟩, false, "", ⟨["primary"]⟩⟩

/-- A model with the calendar-selection view open, every calendar toggled
off, the service connected and no sync in flight. -/
def m6 : Model :=
  ⟨⟨2024, 5, 20, []⟩, 0, pickerZero, true, ⟨false, []⟩,
    ⟨true, [⟨"work", "Work"⟩], [("work", false)], 0⟩, false, "", ⟨["work"]⟩⟩

/-- A remote where calendar "a" succeeds with no events and every other
calendar fails. -/
def failRemote : Remote :=
  ⟨fun id => id, fun id => if id = "a" then .ok [] else .error "boom"⟩

/-- A remote where every calendar fails. -/
def allFailRemote : Remote := ⟨fun id => id, fun _ => .error "down"⟩

/-- A remote where every calendar returns one event on May 20. -/
def oneRemote : Remote :=
  ⟨fun id => id, fun _ => .ok [⟨"standup", some (5, 20)⟩]⟩

/-- A month picker in its freshly opened state. -/
def monthPicker : pickerState := ⟨.pickerMonth, 0, 0, [], []⟩

/-! ### Correctness of the date conversion -/

theorem segCum_succ (len : Nat → Nat) (j : Nat) :
    segCum len (j + 1) = segCum len j + len j := rfl

theorem segCum_mono (len : Nat → Nat) {a b : Nat} (h : a ≤ b) :
    segCum len a ≤ segCum len b := by
  induction b, h using Nat.le_induction with
  | base => exact Nat.le_refl _
  | succ b hb ih => exact Nat.le_trans ih (by rw [segCum_succ]; omega)

theorem findSeg_spec (len : Nat → Nat) :
    ∀ (fuel i r : Nat), segCum len i + r < segCum len (i + fuel) →
      i ≤ (findSeg len i r fuel).1 ∧ (findSeg len i r fuel).1 < i + fuel ∧
      (findSeg len i r fuel).2 < len (findSeg len i r fuel).1 ∧
      segCum len (findSeg len i r fuel).1 + (findSeg len i r fuel).2 =
        segCum len i + r := by
  intro fuel
  induction fuel with
  | zero =>
    intro i r h
    rw [Nat.add_zero] at h
    omega
  | succ fuel ih =>
    intro i r h
    have hstep : findSeg len i r (fuel + 1)
        = if r < len i then (i, r) else findSeg len (i + 1) (r - len i) fuel := rfl
    by_cases hr : r < len i
    · rw [hstep, if_pos hr]
      exact ⟨Nat.le_refl _, by omega, hr, rfl⟩
    · rw [hstep, if_neg hr]
      have hle : len i ≤ r := Nat.le_of_not_lt hr
      have hrec := ih (i + 1) (r - len i) (by
        rw [segCum_succ]
        have h2 : i + 1 + fuel = i + (fuel + 1) := by omega
        rw [h2]
        omega)
      rcases hrec with ⟨h1, h2, h3, h4⟩
      refine ⟨by omega, by omega, h3, ?_⟩
      rw [h4, segCum_succ]
      omega

theorem seg_unique (len : Nat → Nat) {a b x y : Nat}
    (hx : x < len a) (hy : y < len b)
    (h : segCum len a + x = segCum len b + y) : a = b ∧ x = y := by
  rcases Nat.lt_trichotomy a b with hab | hab | hab
  · exfalso
    have h1 : segCum len (a + 1) ≤ segCum len b := segCum_mono len hab
    rw [segCum_succ] at h1
    omega
  · subst hab; omega
  · exfalso
    have h1 : segCum len (b + 1) ≤ segCum len a := segCum_mono len hab
    rw [segCum_succ] at h1
    omega

set_option maxRecDepth 4000 in
theorem segCum_yearLen_400 : segCum yearLenN 400 = 146097 := by decide

theorem segCum_zero (len : Nat → Nat) : segCum len 0 = 0 := rfl

theorem segCum_month_13 (leap : Bool) :
    segCum (monthLenN leap) 13 = if leap then 366 else 365 := by
  cases leap <;> decide

theorem segCum_month_one (leap : Bool) : segCum (monthLenN leap) 1 = 0 := rfl

theorem monthLenN_pos (leap : Bool) (mn : Nat) (h1 : 1 ≤ mn) (h2 : mn ≤ 12) :
    1 ≤ monthLenN leap mn := by
  interval_cases mn <;> cases leap <;> decide

theorem isLeap_era (q : Int) (yoe : Nat) :
    isLeap (q * 400 + (yoe : Int)) = isLeapN yoe := by
  rw [Bool.eq_iff_iff]
  simp only [isLeap, isLeapN, Bool.and_eq_true, Bool.or_eq_true, beq_iff_eq,
    bne_iff_ne, ne_eq]
  omega

/-- Unfolded form of `fromAbs` with the intermediate scans spelled out. -/
theorem fromAbs_mk (n : Int) :
    fromAbs n =
      ⟨n / 146097 * 400 + ((findSeg yearLenN 0 (n % 146097).toNat 400).1 : Int),
       ((findSeg (monthLenN (isLeapN (findSeg yearLenN 0 (n % 146097).toNat 400).1)) 1
          (findSeg yearLenN 0 (n % 146097).toNat 400).2 12).1 : Int),
       ((findSeg (monthLenN (isLeapN (findSeg yearLenN 0 (n % 146097).toNat 400).1)) 1
          (findSeg yearLenN 0 (n % 146097).toNat 400).2 12).2 : Int) + 1⟩ := rfl

theorem fromAbs_valid (n : Int) :
    ValidDate (fromAbs n).year (fromAbs n).month (fromAbs n).day := by
  have hdoe_lt : (n % 146097).toNat < 146097 := by
    omega
  obtain ⟨hy1, hy2, hy3, hy4⟩ := findSeg_spec yearLenN 400 0 (n % 146097).toNat
    (by
      rw [segCum_zero, Nat.zero_add, segCum_yearLen_400]
      omega)
  obtain ⟨hm1, hm2, hm3, hm4⟩ := findSeg_spec
    (monthLenN (isLeapN (findSeg yearLenN 0 (n % 146097).toNat 400).1)) 12 1
    (findSeg yearLenN 0 (n % 146097).toNat 400).2
    (by
      have h13 : segCum (monthLenN (isLeapN (findSeg yearLenN 0 (n % 146097).toNat 400).1)) 13
          = yearLenN (findSeg yearLenN 0 (n % 146097).toNat 400).1 := by
        rw [segCum_month_13]
        unfold yearLenN
        rfl
      rw [segCum_month_one, show (1 : Nat) + 12 = 13 from rfl, h13]
      unfold yearLenN at hy3 ⊢
      omega)
  rw [fromAbs_mk]
  have hleap : isLeap (n / 146097 * 400 +
        ((findSeg yearLenN 0 (n % 146097).toNat 400).1 : Int))
      = isLeapN (findSeg yearLenN 0 (n % 146097).toNat 400).1 := isLeap_era _ _
  unfold ValidDate
  dsimp only
  rw [hleap, Int.toNat_natCast]
  refine ⟨by omega, by omega, by omega, by omega⟩

/-- Nat-level core of the round trip: converting back the absolute day index
built from era `q`, year-of-era `yoe`, month `mn` and day `dn` recovers the
civil date. -/
theorem toAbs_fromAbs_nat (q : Int) (yoe mn dn : Nat)
    (h1 : yoe < 400) (h2 : 1 ≤ mn) (h3 : mn ≤ 12) (h4 : 1 ≤ dn)
    (h5 : dn ≤ monthLenN (isLeapN yoe) mn) :
    fromAbs (q * 146097 +
        ((segCum yearLenN yoe +
          (segCum (monthLenN (isLeapN yoe)) mn + (dn - 1)) : Nat) : Int))
      = ⟨q * 400 + (yoe : Int), (mn : Int), (dn : Int)⟩ := by
  have hinner_lt : segCum (monthLenN (isLeapN yoe)) mn + (dn - 1)
      < yearLenN yoe := by
    have hstep : segCum (monthLenN (isLeapN yoe)) (mn + 1)
        = segCum (monthLenN (isLeapN yoe)) mn + monthLenN (isLeapN yoe) mn := rfl
    have hmono := segCum_mono (monthLenN (isLeapN yoe)) (show mn + 1 ≤ 13 by omega)
    have h13 : segCum (monthLenN (isLeapN yoe)) 13 = yearLenN yoe := by
      rw [segCum_month_13]
      unfold yearLenN
      rfl
    omega
  have hDn_lt : segCum yearLenN yoe +
      (segCum (monthLenN (isLeapN yoe)) mn + (dn - 1)) < 146097 := by
    have hstep : segCum yearLenN (yoe + 1)
        = segCum yearLenN yoe + yearLenN yoe := rfl
    have hmono := segCum_mono yearLenN (show yoe + 1 ≤ 400 by omega)
    rw [segCum_yearLen_400] at hmono
    omega
  set Dn := segCum yearLenN yoe + (segCum (monthLenN (isLeapN yoe)) mn + (dn - 1))
    with hDn
  have hediv : (q * 146097 + (Dn : Int)) / 146097 = q := by omega
  have hemod : (q * 146097 + (Dn : Int)) % 146097 = (Dn : Int) := by omega
  rw [fromAbs_mk, hediv, hemod, Int.toNat_natCast]
  obtain ⟨hy1, hy2, hy3, hy4⟩ := findSeg_spec yearLenN 400 0 Dn
    (by rw [segCum_zero, Nat.zero_add, segCum_yearLen_400]; omega)
  obtain ⟨hyeq, hinnereq⟩ := seg_unique yearLenN hy3 hinner_lt
    (by rw [hy4, segCum_zero, Nat.zero_add, hDn])
  obtain ⟨hm1, hm2, hm3, hm4⟩ := findSeg_spec
    (monthLenN (isLeapN (findSeg yearLenN 0 Dn 400).1)) 12 1
    (findSeg yearLenN 0 Dn 400).2
    (by
      have h13 : segCum (monthLenN (isLeapN (findSeg yearLenN 0 Dn 400).1)) 13
          = yearLenN (findSeg yearLenN 0 Dn 400).1 := by
        rw [segCum_month_13]
        unfold yearLenN
        rfl
      rw [segCum_month_one, show (1 : Nat) + 12 = 13 from rfl, h13]
      unfold yearLenN at hy3 ⊢
      omega)
  have hdlt : dn - 1 < monthLenN (isLeapN (findSeg yearLenN 0 Dn 400).1) mn := by
    rw [hyeq]
    omega
  obtain ⟨hmeq, hdeq⟩ := seg_unique
    (monthLenN (isLeapN (findSeg yearLenN 0 Dn 400).1)) hm3 hdlt
    (by rw [hm4, segCum_month_one, Nat.zero_add, hinnereq, hyeq])
  simp only [Date.mk.injEq]
  refine ⟨by omega, by omega, by omega⟩

theorem fromAbs_toAbs {y m d : Int} (h : ValidDate y m d) :
    fromAbs (toAbs y m d) = ⟨y, m, d⟩ := by
  obtain ⟨hm1, hm2, hd1, hd2⟩ := h
  have hleap : isLeap y = isLeapN (y % 400).toNat := by
    have hy' : y = y / 400 * 400 + (((y % 400).toNat : Nat) : Int) := by omega
    conv_lhs => rw [hy']
    rw [isLeap_era]
  have habs : toAbs y m d = y / 400 * 146097 +
      ((segCum yearLenN (y % 400).toNat +
        (segCum (monthLenN (isLeapN (y % 400).toNat)) m.toNat +
          (d.toNat - 1)) : Nat) : Int) := by
    unfold toAbs absOfYear
    rw [hleap]
    omega
  rw [habs, toAbs_fromAbs_nat (y / 400) (y % 400).toNat m.toNat d.toNat
    (by omega) (by omega) (by omega) (by omega)
    (by rw [hleap] at hd2; omega)]
  simp only [Date.mk.injEq]
  refine ⟨by omega, by omega, by omega⟩


theorem goDate_valid (y m d : Int) :
    ValidDate (goDate y m d).year (goDate y m d).month (goDate y m d).day :=
  fromAbs_valid _

theorem normMonth_range (y m : Int) :
    1 ≤ (normMonth y m).2 ∧ (normMonth y m).2 ≤ 12 := by
  unfold normMonth
  constructor <;> simp <;> omega

theorem normMonth_index (y m : Int) :
    12 * (normMonth y m).1 + ((normMonth y m).2 - 1) = 12 * y + (m - 1) := by
  unfold normMonth
  have h := Int.ediv_add_emod (m - 1) 12
  simp only
  ring_nf
  omega

theorem normMonth_eq_self {m : Int} (y : Int) (hm1 : 1 ≤ m) (hm2 : m ≤ 12) :
    normMonth y m = (y, m) := by
  unfold normMonth
  have h1 : (m - 1) / 12 = 0 := by omega
  have h2 : (m - 1) % 12 = m - 1 := by omega
  rw [h1, h2]
  simp

theorem goDate_fixed {y m d : Int} (h : ValidDate y m d) :
    goDate y m d = ⟨y, m, d⟩ := by
  unfold goDate
  rw [normMonth_eq_self y h.1 h.2.1]
  exact fromAbs_toAbs h

theorem isLeap_mod400 (y : Int) : isLeap y = isLeapN ((y % 400).toNat) := by
  have hy : y = y / 400 * 400 + (((y % 400).toNat : Nat) : Int) := by omega
  conv_lhs => rw [hy]
  rw [isLeap_era]

theorem absOfYear_succ (y : Int) :
    absOfYear (y + 1) = absOfYear y + (yearLenN ((y % 400).toNat) : Int) := by
  unfold absOfYear
  by_cases h : y % 400 = 399
  · have hq : (y + 1) / 400 = y / 400 + 1 := by omega
    have hrr : (y + 1) % 400 = 0 := by omega
    rw [hq, hrr]
    have h400 := segCum_yearLen_400
    have hstep := segCum_succ yearLenN 399
    have h399 : (399 : Nat) + 1 = 400 := rfl
    rw [h399] at hstep
    have hy399 : (y % 400).toNat = 399 := by omega
    rw [hy399, Int.toNat_zero, segCum_zero]
    push_cast
    omega
  · have hq : (y + 1) / 400 = y / 400 := by omega
    have hrr : (y + 1) % 400 = y % 400 + 1 := by omega
    rw [hq, hrr]
    have htn : (y % 400 + 1).toNat = (y % 400).toNat + 1 := by omega
    rw [htn]
    have hstep : segCum yearLenN ((y % 400).toNat + 1)
        = segCum yearLenN ((y % 400).toNat) + yearLenN ((y % 400).toNat) := rfl
    omega

/-! ### The source's date arithmetic -/

theorem daysIn_eq (y : Int) {m : Int} (hm1 : 1 ≤ m) (hm2 : m ≤ 12) :
    daysIn y m = (monthLenN (isLeap y) m.toNat : Int) := by
  unfold daysIn goDate
  by_cases h12 : m = 12
  · subst h12
    have hn : normMonth y (12 + 1) = (y + 1, 1) := by
      unfold normMonth
      norm_num
    show (fromAbs (toAbs (normMonth y (12 + 1)).1 (normMonth y (12 + 1)).2 0)).day
      = (monthLenN (isLeap y) ((12 : Int)).toNat : Int)
    rw [hn]
    have h31 : monthLenN (isLeap y) ((12 : Int)).toNat = 31 := by
      cases hb : isLeap y <;> rfl
    have key : toAbs ((y + 1, (1 : Int)).1) ((y + 1, (1 : Int)).2) 0
        = toAbs y 12 31 := by
      show toAbs (y + 1) 1 0 = toAbs y 12 31
      unfold toAbs
      rw [absOfYear_succ]
      have h1 : segCum (monthLenN (isLeap (y + 1))) ((1 : Int)).toNat = 0 := rfl
      have h13 : segCum (monthLenN (isLeap y)) 13 = yearLenN ((y % 400).toNat) := by
        rw [isLeap_mod400, segCum_month_13]
        unfold yearLenN
        rfl
      have h1213 : segCum (monthLenN (isLeap y)) 13
          = segCum (monthLenN (isLeap y)) ((12 : Int)).toNat
            + monthLenN (isLeap y) ((12 : Int)).toNat := rfl
      rw [h1]
      omega
    rw [key, fromAbs_toAbs (show ValidDate y 12 31 by
      refine ⟨by norm_num, by norm_num, by norm_num, ?_⟩
      rw [h31]
      norm_num)]
    rw [h31]
    norm_num
  · have hn : normMonth y (m + 1) = (y, m + 1) :=
      normMonth_eq_self y (by omega) (by omega)
    show (fromAbs (toAbs (normMonth y (m + 1)).1 (normMonth y (m + 1)).2 0)).day
      = (monthLenN (isLeap y) m.toNat : Int)
    rw [hn]
    have key : toAbs ((y, m + 1).1) ((y, m + 1).2) 0
        = toAbs y m ((monthLenN (isLeap y) m.toNat : Nat) : Int) := by
      show toAbs y (m + 1) 0 = toAbs y m ((monthLenN (isLeap y) m.toNat : Nat) : Int)
      unfold toAbs
      have ht : (m + 1).toNat = m.toNat + 1 := by omega
      rw [ht]
      have hstep : segCum (monthLenN (isLeap y)) (m.toNat + 1)
          = segCum (monthLenN (isLeap y)) m.toNat + monthLenN (isLeap y) m.toNat := rfl
      omega
    have hval : ValidDate y m ((monthLenN (isLeap y) m.toNat : Nat) : Int) := by
      refine ⟨hm1, hm2, ?_, le_refl _⟩
      have := monthLenN_pos (isLeap y) m.toNat (by omega) (by omega)
      omega
    rw [key, fromAbs_toAbs hval]

theorem daysIn_pos (y m : Int) : 1 ≤ daysIn y m :=
  (goDate_valid y (m + 1) 0).2.2.1

/-- `ValidDate` restated through the source's `daysIn`. -/
theorem valid_inv {y m d : Int} (h : ValidDate y m d) (es : EventStore) :
    Inv ⟨y, m, d, es⟩ := by
  obtain ⟨h1, h2, h3, h4⟩ := h
  refine ⟨h3, ?_⟩
  show d ≤ daysIn y m
  rw [daysIn_eq y h1 h2]
  exact h4

theorem clampDay_spec (s : calendarState) :
    (clampDay s).year = s.year ∧ (clampDay s).month = s.month ∧
    (clampDay s).events = s.events ∧ 1 ≤ (clampDay s).day ∧
    (clampDay s).day ≤ daysIn s.year s.month := by
  have hpos := daysIn_pos s.year s.month
  simp only [clampDay]
  split_ifs with h1 h2 h3 <;>
    refine ⟨rfl, rfl, rfl, ?_, ?_⟩ <;> simp_all

theorem clampDay_inv (s : calendarState) : Inv (clampDay s) := by
  obtain ⟨hy, hm, he, h1, h2⟩ := clampDay_spec s
  exact ⟨h1, by rw [hy, hm]; exact h2⟩

theorem clampDay_eq_self {s : calendarState} (h : Inv s) : clampDay s = s := by
  obtain ⟨h1, h2⟩ := h
  simp only [clampDay]
  split_ifs with ha hb hc <;> first | rfl | (exfalso; simp_all; omega)

theorem adjustDay_inv (s : calendarState) (delta : Int) : Inv (adjustDay s delta) :=
  valid_inv (goDate_valid s.year s.month (s.day + delta)) s.events

theorem adjustMonth_inv (s : calendarState) (delta : Int) : Inv (adjustMonth s delta) :=
  valid_inv (goDate_valid s.year (s.month + delta) s.day) s.events

theorem adjustYear_inv (s : calendarState) (delta : Int) : Inv (adjustYear s delta) :=
  valid_inv (goDate_valid (s.year + delta) s.month s.day) s.events

theorem adjustYear_events (s : calendarState) (delta : Int) :
    (adjustYear s delta).events = s.events := rfl

/-- When the held day also exists in the destination month, a month step
moves exactly to the normalized `(year, month)` and keeps the day. -/
theorem adjustMonth_fixed (y mo d : Int) (es : EventStore) (delta : Int)
    (hd1 : 1 ≤ d)
    (hfit : d ≤ daysIn (normMonth y (mo + delta)).1 (normMonth y (mo + delta)).2) :
    adjustMonth ⟨y, mo, d, es⟩ delta
      = ⟨(normMonth y (mo + delta)).1, (normMonth y (mo + delta)).2, d, es⟩ := by
  have hrange := normMonth_range y (mo + delta)
  have hval : ValidDate (normMonth y (mo + delta)).1 (normMonth y (mo + delta)).2 d := by
    refine ⟨hrange.1, hrange.2, hd1, ?_⟩
    rw [← daysIn_eq _ hrange.1 hrange.2]
    exact hfit
  show (⟨(fromAbs (toAbs (normMonth y (mo + delta)).1 (normMonth y (mo + delta)).2 d)).year,
      (fromAbs (toAbs (normMonth y (mo + delta)).1 (normMonth y (mo + delta)).2 d)).month,
      (fromAbs (toAbs (normMonth y (mo + delta)).1 (normMonth y (mo + delta)).2 d)).day,
      es⟩ : calendarState) = _
  rw [fromAbs_toAbs hval]

/-- A month step of `+delta` followed by one of `-delta` targets the
original `(year, month)`. -/
theorem normMonth_roundtrip (y m delta : Int) (hm1 : 1 ≤ m) (hm2 : m ≤ 12) :
    normMonth (normMonth y (m + delta)).1 ((normMonth y (m + delta)).2 - delta)
      = (y, m) := by
  have h1 := normMonth_index y (m + delta)
  have h2 := normMonth_index (normMonth y (m + delta)).1
    ((normMonth y (m + delta)).2 - delta)
  have hr1 := normMonth_range y (m + delta)
  have hr2 := normMonth_range (normMonth y (m + delta)).1
    ((normMonth y (m + delta)).2 - delta)
  rw [Prod.ext_iff]
  constructor <;> omega

example : goDate 2024 2 29 = ⟨2024, 2, 29⟩ := by decide
example : goDate 2024 2 31 = ⟨2024, 3, 2⟩ := by decide
example : goDate 2024 13 0 = ⟨2024, 12, 31⟩ := by decide
example : goDate 2023 3 0 = ⟨2023, 2, 28⟩ := by decide
example : goDate 2024 1 32 = ⟨2024, 2, 1⟩ := by decide
example : goDate 2025 1 (-1) = ⟨2024, 12, 30⟩ := by decide


/-! ## Claims about the date arithmetic (C2, C3) -/

/-- C2 (counterexample): starting at (2024, 1, 31), `stepMonth(+1)`
followed by clamp yields (2024, 3, 2) — not (2024, 2, 29) as the claim
states: Go's `AddDate` wraps the 31st of January + one month (February
31st) into March instead of leaving a too-long day for the clamp pass. -/
theorem claim_C2_counterexample :
    clampDay (adjustMonth ⟨2024, 1, 31, []⟩ 1) = (⟨2024, 3, 2, []⟩ : calendarState) ∧
    clampDay (adjustMonth ⟨2024, 1, 31, []⟩ 1) ≠ (⟨2024, 2, 29, []⟩ : calendarState) := by
  decide

/-- C2 (amended): `stepMonth` holds the day fixed exactly when the
destination month is long enough for it; when it is shorter, the excess
days wrap into the following month inside `stepMonth` itself, the result
is already a valid date, and the subsequent clamp pass leaves it
unchanged; in particular (2024, 1, 31) after `stepMonth(+1)` and clamp is
(2024, 3, 2). -/
theorem claim_C2 (s : calendarState) (delta : Int) (hd1 : 1 ≤ s.day)
    (hfit : s.day ≤ daysIn (normMonth s.year (s.month + delta)).1
      (normMonth s.year (s.month + delta)).2) :
    adjustMonth s delta = { s with
      year := (normMonth s.year (s.month + delta)).1
      month := (normMonth s.year (s.month + delta)).2
      day := s.day } ∧
    clampDay (adjustMonth s delta) = adjustMonth s delta ∧
    clampDay (adjustMonth ⟨2024, 1, 31, []⟩ 1) = (⟨2024, 3, 2, []⟩ : calendarState) := by
  obtain ⟨y, mo, d, es⟩ := s
  exact ⟨adjustMonth_fixed y mo d es delta hd1 hfit,
    clampDay_eq_self (adjustMonth_inv _ delta), by decide⟩

/-- C2 (witness): a concrete instance of the amended claim at
(2024, 1, 15) with delta 1. -/
theorem claim_C2_witness :
    adjustMonth ⟨2024, 1, 15, []⟩ 1 = (⟨2024, 2, 15, []⟩ : calendarState) ∧
    clampDay (adjustMonth ⟨2024, 1, 15, []⟩ 1) = adjustMonth ⟨2024, 1, 15, []⟩ 1 ∧
    clampDay (adjustMonth ⟨2024, 1, 31, []⟩ 1) = (⟨2024, 3, 2, []⟩ : calendarState) :=
  claim_C2 ⟨2024, 1, 15, []⟩ 1 (by decide) (by decide)

/-- C3 (counterexample): from (2024, 1, 31) with d = 1 the round trip
lands on (2024, 2, 2): `clamp(stepMonth(stepMonth(p, 1), -1))` is
(2024, 2, 2) while `clamp(p)` is (2024, 1, 31). -/
theorem claim_C3_counterexample :
    clampDay (adjustMonth (adjustMonth ⟨2024, 1, 31, []⟩ 1) (-1))
      = (⟨2024, 2, 2, []⟩ : calendarState) ∧
    clampDay ⟨2024, 1, 31, []⟩ = (⟨2024, 1, 31, []⟩ : calendarState) ∧
    (⟨2024, 2, 2, []⟩ : calendarState) ≠ ⟨2024, 1, 31, []⟩ := by
  decide

/-- C3 (amended): for a valid position whose day also fits the month
reached by the first step, the month round trip is exact —
`stepMonth(stepMonth(p, d), -d) = p`, hence also equal after `clamp`; at
month-length boundaries the first step wraps into the following month and
the round trip need not reproduce the position. -/
theorem claim_C3 (s : calendarState) (delta : Int)
    (hm1 : 1 ≤ s.month) (hm2 : s.month ≤ 12)
    (hd1 : 1 ≤ s.day) (hd2 : s.day ≤ daysIn s.year s.month)
    (hfit : s.day ≤ daysIn (normMonth s.year (s.month + delta)).1
      (normMonth s.year (s.month + delta)).2) :
    adjustMonth (adjustMonth s delta) (-delta) = s ∧
    clampDay (adjustMonth (adjustMonth s delta) (-delta)) = clampDay s := by
  obtain ⟨y, mo, d, es⟩ := s
  replace hm1 : 1 ≤ mo := hm1
  replace hm2 : mo ≤ 12 := hm2
  replace hd1 : 1 ≤ d := hd1
  replace hd2 : d ≤ daysIn y mo := hd2
  replace hfit : d ≤ daysIn (normMonth y (mo + delta)).1 (normMonth y (mo + delta)).2 := hfit
  have h1 : adjustMonth ⟨y, mo, d, es⟩ delta
      = (⟨(normMonth y (mo + delta)).1, (normMonth y (mo + delta)).2, d, es⟩ : calendarState) :=
    adjustMonth_fixed y mo d es delta hd1 hfit
  have hr := normMonth_roundtrip y mo delta hm1 hm2
  have hadd : (normMonth y (mo + delta)).2 + -delta
      = (normMonth y (mo + delta)).2 - delta := by ring
  have hfit2 : d ≤ daysIn
      (normMonth (normMonth y (mo + delta)).1 ((normMonth y (mo + delta)).2 + -delta)).1
      (normMonth (normMonth y (mo + delta)).1 ((normMonth y (mo + delta)).2 + -delta)).2 := by
    rw [hadd, hr]
    exact hd2
  have h2 : adjustMonth
      (⟨(normMonth y (mo + delta)).1, (normMonth y (mo + delta)).2, d, es⟩ : calendarState)
      (-delta)
      = (⟨(normMonth (normMonth y (mo + delta)).1 ((normMonth y (mo + delta)).2 + -delta)).1,
          (normMonth (normMonth y (mo + delta)).1 ((normMonth y (mo + delta)).2 + -delta)).2,
          d, es⟩ : calendarState) :=
    adjustMonth_fixed (normMonth y (mo + delta)).1 (normMonth y (mo + delta)).2 d es
      (-delta) hd1 hfit2
  have hmain : adjustMonth (adjustMonth ⟨y, mo, d, es⟩ delta) (-delta)
      = (⟨y, mo, d, es⟩ : calendarState) := by
    rw [h1, h2, hadd, hr]
  exact ⟨hmain, by rw [hmain]⟩

/-- C3 (witness): a concrete instance of the amended claim at
(2024, 1, 15) with d = 1. -/
theorem claim_C3_witness :
    adjustMonth (adjustMonth ⟨2024, 1, 15, []⟩ 1) (-1) = (⟨2024, 1, 15, []⟩ : calendarState) ∧
    clampDay (adjustMonth (adjustMonth ⟨2024, 1, 15, []⟩ 1) (-1)) = clampDay ⟨2024, 1, 15, []⟩ :=
  claim_C3 ⟨2024, 1, 15, []⟩ 1 (by decide) (by decide) (by decide) (by decide) (by decide)

/-! ## The calendar-position invariant over the message loop (C1) -/

theorem finish_inv (m : Model) : Inv (finish m).model.state :=
  clampDay_inv m.state

theorem Inv_events {s : calendarState} (es : EventStore) (h : Inv s) :
    Inv ⟨s.year, s.month, s.day, es⟩ := h

theorem yearStep_inv (env : Env) (m : Model) (delta : Int) :
    Inv (yearStep env m delta).model.state := by
  unfold yearStep
  split
  · split
    · exact finish_inv _
    · split
      · exact Inv_events [] (adjustYear_inv m.state delta)
      · exact finish_inv _
  · exact finish_inv _

theorem mainKeys_inv (env : Env) (m : Model) (k : Key) (h : Inv m.state) :
    Inv (mainKeys env m k).model.state := by
  unfold mainKeys
  by_cases h1 : keyString k = "ctrl+c" ∨ keyString k = "q" ∨ keyString k = "esc"
  · rw [if_pos h1]; exact h
  rw [if_neg h1]
  by_cases h2 : keyString k = "left" ∨ keyString k = "h"
  · rw [if_pos h2]; exact finish_inv _
  rw [if_neg h2]
  by_cases h3 : keyString k = "right" ∨ keyString k = "l"
  · rw [if_pos h3]; exact finish_inv _
  rw [if_neg h3]
  by_cases h4 : keyString k = "up" ∨ keyString k = "k"
  · rw [if_pos h4]; exact finish_inv _
  rw [if_neg h4]
  by_cases h5 : keyString k = "down" ∨ keyString k = "j"
  · rw [if_pos h5]; exact finish_inv _
  rw [if_neg h5]
  by_cases h6 : keyString k = "n"
  · rw [if_pos h6]; exact finish_inv _
  rw [if_neg h6]
  by_cases h7 : keyString k = "p"
  · rw [if_pos h7]; exact finish_inv _
  rw [if_neg h7]
  by_cases h8 : keyString k = "N"
  · rw [if_pos h8]; exact yearStep_inv env m 1
  rw [if_neg h8]
  by_cases h9 : keyString k = "P"
  · rw [if_pos h9]; exact yearStep_inv env m (-1)
  rw [if_neg h9]
  by_cases h10 : keyString k = "t" ∨ keyString k = "T"
  · rw [if_pos h10]; exact finish_inv _
  rw [if_neg h10]
  by_cases h11 : keyString k = "y" ∨ keyString k = "Y"
  · rw [if_pos h11]; exact finish_inv _
  rw [if_neg h11]
  by_cases h12 : keyString k = "m" ∨ keyString k = "M"
  · rw [if_pos h12]; exact finish_inv _
  rw [if_neg h12]
  by_cases h13 : keyString k = "s" ∨ keyString k = "S"
  · rw [if_pos h13]
    by_cases hs : (m.hasSrv && !m.syncing) = true
    · rw [if_pos hs]; exact h
    · rw [if_neg hs]; exact finish_inv _
  rw [if_neg h13]
  by_cases h14 : keyString k = "c" ∨ keyString k = "C"
  · rw [if_pos h14]; exact finish_inv _
  rw [if_neg h14]
  by_cases h15 : keyString k = "e" ∨ keyString k = "E"
  · rw [if_pos h15]; exact finish_inv _
  rw [if_neg h15]
  exact finish_inv _

theorem handlePickerInput_cases (m : Model) (k : Key) :
    (handlePickerInput m k).1.state = m.state ∨ (handlePickerInput m k).2 = true := by
  unfold handlePickerInput
  repeat' first | (exact Or.inl rfl) | (exact Or.inr rfl) | split

theorem applyCalendarSelection_state (m : Model) :
    (applyCalendarSelection m).1.state = m.state := by
  unfold applyCalendarSelection
  split <;> rfl

theorem handleCalendarViewInput_state (m : Model) (k : Key) :
    (handleCalendarViewInput m k).model.state = m.state := by
  unfold handleCalendarViewInput
  repeat' first | rfl | (exact applyCalendarSelection_state m) | split

theorem afterPicker_inv (env : Env) (pr : Model × Bool) (k : Key)
    (h : pr.2 = false → Inv pr.1.state) :
    Inv (afterPicker env pr k).model.state := by
  unfold afterPicker
  split
  · exact finish_inv _
  · next hfalse =>
    refine mainKeys_inv env pr.1 k (h ?_)
    simp only [Bool.not_eq_true] at hfalse
    exact hfalse

theorem afterCalendarView_inv (env : Env) (cv : CVResult) (k : Key)
    (h : Inv cv.model.state) :
    Inv (afterCalendarView env cv k).model.state := by
  unfold afterCalendarView
  split
  · exact h
  · refine afterPicker_inv env _ k ?_
    intro hfalse
    rcases handlePickerInput_cases cv.model k with hst | hh
    · rw [hst]
      exact h
    · rw [hh] at hfalse
      exact Bool.noConfusion hfalse

theorem updateKey_inv (env : Env) (m : Model) (k : Key) (h : Inv m.state) :
    Inv (updateKey env m k).model.state := by
  unfold updateKey
  split
  · split
    · exact h
    · exact h
  · refine afterCalendarView_inv env _ k ?_
    split
    · rw [handleCalendarViewInput_state]
      exact h
    · exact h

theorem Update_inv (env : Env) (m : Model) (msg : Msg) (h : Inv m.state) :
    Inv (Update env m msg).model.state := by
  cases msg with
  | windowSize w => exact finish_inv _
  | key k => exact updateKey_inv env m k h
  | syncDone ev err =>
    cases err with
    | some e => exact h
    | none =>
      cases ev with
      | some es => exact Inv_events es h
      | none => exact h

theorem run_inv (l : List (Env × Msg)) :
    ∀ m : Model, Inv m.state → Inv (run m l).state := by
  induction l with
  | nil => intro m h; exact h
  | cons em rest ih => intro m h; exact ih _ (Update_inv em.1 m em.2 h)

/-- C1: from any model whose calendar position satisfies
`1 ≤ day ≤ daysIn (year, month)`, every sequence of `Update` steps
(keystrokes, window sizes, sync completions) preserves that invariant;
moreover every single post-state is a fixed point of `clampDay`, i.e. each
transition returns as if the clamp step had just run on it. -/
theorem claim_C1 (m : Model) (l : List (Env × Msg)) (h : Inv m.state) :
    Inv (run m l).state ∧
    ∀ (env : Env) (msg : Msg),
      Inv (Update env m msg).model.state ∧
      clampDay (Update env m msg).model.state = (Update env m msg).model.state := by
  refine ⟨run_inv l m h, fun env msg => ?_⟩
  have hi := Update_inv env m msg h
  exact ⟨hi, clampDay_eq_self hi⟩

/-- C1 (witness): the invariant holds after a concrete two-message run
(month step, then quit) from the sample model, and the single-step
conclusions hold for the month-step message. -/
theorem claim_C1_witness :
    Inv (run sampleModel
      [(sampleEnv, .key (.runes ['n'])), (sampleEnv, .key .esc)]).state ∧
    Inv (Update sampleEnv sampleModel (.key (.runes ['n']))).model.state ∧
    clampDay (Update sampleEnv sampleModel (.key (.runes ['n']))).model.state
      = (Update sampleEnv sampleModel (.key (.runes ['n']))).model.state :=
  ⟨(claim_C1 sampleModel
      [(sampleEnv, .key (.runes ['n'])), (sampleEnv, .key .esc)] (by decide)).1,
   ((claim_C1 sampleModel [] (by decide)).2 sampleEnv (.key (.runes ['n']))).1,
   ((claim_C1 sampleModel [] (by decide)).2 sampleEnv (.key (.runes ['n']))).2⟩


/-! ## Claim C4: cache load freshness -/

/-- C4 (counterexample): a record whose age is exactly 24 hours is still
reported fresh — the code discards freshness only when `cacheAge >
24*time.Hour`, so "under 24 hours" in the claim is off at the boundary:
here the age equals 24 hours, which is not under 24 hours, yet `isFresh`
is `true`. -/
theorem claim_C4_counterexample :
    (LoadEventsCache (some ⟨2024, e24, 0⟩) h24 2024).2 = true ∧
    ¬((h24 : Int) - 0 < h24) := by
  refine ⟨by decide, ?_⟩
  have hh : (h24 : Int) = 86400000000000 := rfl
  omega

/-- C4 (amended): cache load returns absent when no readable record
exists or the stored year differs from the requested one; when the year
matches it always returns the stored events, with `isFresh` true exactly
when the record's age is **at most** 24 hours (so an exactly-24-hour-old
record counts as fresh; a staler same-year record is still returned with
`isFresh = false`). -/
theorem claim_C4 (disk : Option EventCache) (nowNanos year : Int) :
    (disk = none → LoadEventsCache disk nowNanos year = (none, false)) ∧
    (∀ c, disk = some c → c.year ≠ year →
      LoadEventsCache disk nowNanos year = (none, false)) ∧
    (∀ c, disk = some c → c.year = year →
      LoadEventsCache disk nowNanos year
        = (some c.events, decide (nowNanos - c.timestamp ≤ h24))) := by
  refine ⟨?_, ?_, ?_⟩
  · intro h
    subst h
    rfl
  · intro c h hy
    subst h
    simp only [LoadEventsCache]
    rw [if_pos hy]
  · intro c h hy
    subst h
    simp only [LoadEventsCache]
    rw [if_neg (fun hne => hne hy)]
    by_cases ht : nowNanos - c.timestamp > h24
    · rw [if_pos ht]
      have hd : decide (nowNanos - c.timestamp ≤ h24) = false := by
        simp only [decide_eq_false_iff_not]
        omega
      rw [hd]
    · rw [if_neg ht]
      have hd : decide (nowNanos - c.timestamp ≤ h24) = true := by
        simp only [decide_eq_true_eq]
        omega
      rw [hd]

/-- Closed instantiation of `claim_C4` on the fixture cache. -/
theorem claim_C4_witness :
    LoadEventsCache none 5 2024 = (none, false) ∧
    LoadEventsCache (some cache24) 5 2025 = (none, false) ∧
    LoadEventsCache (some cache24) 5 2024
      = (some cache24.events, decide ((5 : Int) - cache24.timestamp ≤ h24)) :=
  ⟨(claim_C4 none 5 2024).1 rfl,
   (claim_C4 (some cache24) 5 2025).2.1 cache24 rfl (by decide),
   (claim_C4 (some cache24) 5 2024).2.2 cache24 rfl rfl⟩

/-! ## Claim C5: sync-completion handling -/

/-- C5: on a sync-completion message the syncing flag is cleared in every
case; on failure the whole calendar state (hence the event store) is kept,
a human-readable error is recorded and nothing is persisted; on success
with a result the store is replaced, persisted to the disk cache under the
currently-tracked year, and the prior error is cleared.  Moreover the
sync command itself never delivers a success message without an event
store. -/
theorem claim_C5 (env : Env) (m : Model) (ev : Option EventStore)
    (err : Option String) :
    (Update env m (.syncDone ev err)).model.syncing = false ∧
    (∀ e, err = some e →
      (Update env m (.syncDone ev err)).model.state = m.state ∧
      (Update env m (.syncDone ev err)).model.syncError = "Sync failed: " ++ e ∧
      (Update env m (.syncDone ev err)).effects.savedCache = none ∧
      (Update env m (.syncDone ev err)).cmd = none) ∧
    (∀ es, err = none → ev = some es →
      (Update env m (.syncDone ev err)).model.state.events = es ∧
      (Update env m (.syncDone ev err)).model.syncError = "" ∧
      (Update env m (.syncDone ev err)).effects.savedCache
        = some (m.state.year, es) ∧
      (Update env m (.syncDone ev err)).cmd = none) ∧
    (∀ (srvOk : Bool) (ids : List String) (year : Int) (r : Remote),
      (syncEvents srvOk ids year r).2 = none →
      (syncEvents srvOk ids year r).1 ≠ none) := by
  refine ⟨?_, ?_, ?_, ?_⟩
  · cases err with
    | some e => rfl
    | none =>
      cases ev with
      | some es => rfl
      | none => rfl
  · intro e he
    subst he
    exact ⟨rfl, rfl, rfl, rfl⟩
  · intro es he hev
    subst he
    subst hev
    exact ⟨rfl, rfl, rfl, rfl⟩
  · intro srvOk ids year r h
    unfold syncEvents at h ⊢
    by_cases hs : (!srvOk) = true
    · rw [if_pos hs] at h
      simp at h
    · rw [if_neg hs] at h ⊢
      by_cases hid : ids = []
      · rw [if_pos hid]
        simp
      · rw [if_neg hid] at h ⊢
        cases hF : FetchAllMonthsEvents srvOk ids r with
        | mk st errF =>
          cases errF with
          | some e =>
            intro hcon
            exact Option.noConfusion (show some ([] : EventStore) = none from hcon)
          | none =>
            intro hcon
            exact Option.noConfusion (show some st = none from hcon)

/-- Closed instantiation of `claim_C5` on the sample model: a successful
completion installs and persists the store, a failed one keeps the state,
and a concrete sync command yields a non-nil store. -/
theorem claim_C5_witness :
    (Update sampleEnv sampleModel (.syncDone (some e24) none)).model.syncing
      = false ∧
    (Update sampleEnv sampleModel (.syncDone (some e24) none)).model.state.events
      = e24 ∧
    (Update sampleEnv sampleModel (.syncDone (some e24) none)).effects.savedCache
      = some (sampleModel.state.year, e24) ∧
    (Update sampleEnv sampleModel (.syncDone none (some "net"))).model.state
      = sampleModel.state ∧
    (syncEvents true ["primary"] 2024 oneRemote).1 ≠ none :=
  ⟨(claim_C5 sampleEnv sampleModel (some e24) none).1,
   ((claim_C5 sampleEnv sampleModel (some e24) none).2.2.1 e24 rfl rfl).1,
   ((claim_C5 sampleEnv sampleModel (some e24) none).2.2.1 e24 rfl rfl).2.2.1,
   ((claim_C5 sampleEnv sampleModel none (some "net")).2.1 "net" rfl).1,
   (claim_C5 sampleEnv sampleModel none none).2.2.2 true ["primary"] 2024
     oneRemote (by decide)⟩

/-! ## Claim C8: fetch error aggregation -/

/-- If the calendar fold reports an error, either the accumulator already
carried one or some calendar in the list failed. -/
theorem fetchFold_err (r : Remote) :
    ∀ (ids : List String) (acc : EventStore × Option String),
      (ids.foldl (fetchStep r) acc).2 = acc.2 ∨
      ∃ id ∈ ids, ∃ e, r.events id = .error e := by
  intro ids
  induction ids with
  | nil => intro acc; exact Or.inl rfl
  | cons id rest ih =>
    intro acc
    rw [List.foldl_cons]
    cases hr : r.events id with
    | error e => exact Or.inr ⟨id, List.mem_cons_self id rest, e, hr⟩
    | ok items =>
      rcases ih (fetchStep r acc id) with h | h
      · left
        rw [h]
        unfold fetchStep
        rw [hr]
      · right
        rcases h with ⟨id2, hmem, e, he⟩
        exact ⟨id2, List.mem_cons_of_mem id hmem, e, he⟩

/-- If every calendar in the list fails, the fold leaves the store as it
was, and (for a nonempty list) ends holding some error. -/
theorem fetchFold_allfail (r : Remote) :
    ∀ (ids : List String) (acc : EventStore × Option String),
      (∀ id ∈ ids, ∃ e, r.events id = .error e) →
      (ids.foldl (fetchStep r) acc).1 = acc.1 ∧
      (ids ≠ [] → ∃ e, (ids.foldl (fetchStep r) acc).2 = some e) := by
  intro ids
  induction ids with
  | nil =>
    intro acc _
    exact ⟨rfl, fun h2 => absurd rfl h2⟩
  | cons id rest ih =>
    intro acc hall
    obtain ⟨e, he⟩ := hall id (List.mem_cons_self id rest)
    rw [List.foldl_cons]
    have hstep : fetchStep r acc id = (acc.1, some e) := by
      unfold fetchStep
      rw [he]
    rw [hstep]
    have hrest := ih (acc.1, some e)
      (fun i hi => hall i (List.mem_cons_of_mem id hi))
    refine ⟨hrest.1, fun _ => ?_⟩
    by_cases hr : rest = []
    · subst hr
      exact ⟨e, rfl⟩
    · exact hrest.2 hr

/-- The store aggregated by the calendar fold does not depend on what
failing calendars return: replacing every failure by an empty success
leaves the first component unchanged. -/
theorem fetchFold_store_patch (r : Remote) :
    ∀ (ids : List String) (st : EventStore) (e1 e2 : Option String),
      (ids.foldl (fetchStep r) (st, e1)).1
        = (ids.foldl (fetchStep (okRemote r)) (st, e2)).1 := by
  intro ids
  induction ids with
  | nil => intro st e1 e2; rfl
  | cons id rest ih =>
    intro st e1 e2
    rw [List.foldl_cons, List.foldl_cons]
    cases hr : r.events id with
    | error e =>
      have h1 : fetchStep r (st, e1) id = (st, some e) := by
        unfold fetchStep
        rw [hr]
      have h2 : fetchStep (okRemote r) (st, e2) id = (st, e2) := by
        simp only [fetchStep, okRemote, hr]
        rfl
      rw [h1, h2]
      exact ih st (some e) e2
    | ok items =>
      have h1 : fetchStep r (st, e1) id = (storeItems id r st items, e1) := by
        simp only [fetchStep, hr]
      have h2 : fetchStep (okRemote r) (st, e2) id
          = (storeItems id (okRemote r) st items, e2) := by
        simp only [fetchStep, okRemote, hr]
      rw [h1, h2]
      have hsame : storeItems id (okRemote r) st items
          = storeItems id r st items := rfl
      rw [hsame]
      exact ih (storeItems id r st items) e1 e2

/-- The branch structure of `FetchAllMonthsEvents` for a live service and
a nonempty calendar list, with the final `len(allEvents) == 0 && lastErr
!= nil` gate spelled out. -/
theorem FetchAllMonthsEvents_eq (ids : List String) (r : Remote)
    (hid : ids ≠ []) :
    FetchAllMonthsEvents true ids r =
      (if (ids.foldl (fetchStep r) ([], none)).1 = [] ∧
          (ids.foldl (fetchStep r) ([], none)).2 ≠ none then
        ((ids.foldl (fetchStep r) ([], none)).1,
          (ids.foldl (fetchStep r) ([], none)).2)
      else ((ids.foldl (fetchStep r) ([], none)).1, none)) := by
  unfold FetchAllMonthsEvents
  rw [if_neg (show ¬((!true) = true) by decide), if_neg hid]

/-- C8 (counterexample): with calendar "a" succeeding (but contributing
no events) and calendar "b" failing, the fetch still surfaces the error —
so "error absent when at least one calendar succeeded" is wrong: the
error is suppressed only when the aggregated store is nonempty. -/
theorem claim_C8_counterexample :
    failRemote.events "a" = .ok [] ∧
    FetchAllMonthsEvents true ["a", "b"] failRemote = ([], some "boom") := by
  refine ⟨rfl, by decide⟩

/-- C8 (amended): the year fetch surfaces an error iff the aggregated
store came out empty and some calendar failed.  Precisely: (i) a nonempty
store suppresses the error; (ii) a surfaced error implies some calendar
failed; (iii) if every calendar of a nonempty list fails, the store is
empty and an error is surfaced; (iv) the aggregated store never depends
on failing calendars — they contribute no events and do not abort the
others.  (A calendar that succeeds with zero events does **not** suppress
the error of another calendar.) -/
theorem claim_C8 (ids : List String) (r : Remote) :
    ((FetchAllMonthsEvents true ids r).1 ≠ [] →
      (FetchAllMonthsEvents true ids r).2 = none) ∧
    ((FetchAllMonthsEvents true ids r).2 ≠ none →
      ∃ id ∈ ids, ∃ e, r.events id = .error e) ∧
    (ids ≠ [] → (∀ id ∈ ids, ∃ e, r.events id = .error e) →
      (FetchAllMonthsEvents true ids r).1 = [] ∧
      (FetchAllMonthsEvents true ids r).2 ≠ none) ∧
    ((FetchAllMonthsEvents true ids r).1
      = (FetchAllMonthsEvents true ids (okRemote r)).1) := by
  by_cases hid : ids = []
  · subst hid
    refine ⟨fun h => absurd rfl h, fun h => absurd rfl h,
      fun h => absurd rfl h, rfl⟩
  · have hF := FetchAllMonthsEvents_eq ids r hid
    have hF2 := FetchAllMonthsEvents_eq ids (okRemote r) hid
    refine ⟨?_, ?_, ?_, ?_⟩
    · intro h
      rw [hF] at h ⊢
      by_cases hc : (ids.foldl (fetchStep r) ([], none)).1 = [] ∧
          (ids.foldl (fetchStep r) ([], none)).2 ≠ none
      · rw [if_pos hc] at h
        exact absurd hc.1 h
      · rw [if_neg hc]
    · intro h
      rw [hF] at h
      by_cases hc : (ids.foldl (fetchStep r) ([], none)).1 = [] ∧
          (ids.foldl (fetchStep r) ([], none)).2 ≠ none
      · rcases fetchFold_err r ids ([], none) with hsnd | hex
        · rw [if_pos hc] at h
          exact absurd hsnd hc.2
        · exact hex
      · rw [if_neg hc] at h
        exact absurd rfl h
    · intro _ hall
      have hfold := fetchFold_allfail r ids ([], none) hall
      obtain ⟨e, he⟩ := hfold.2 hid
      have hc : (ids.foldl (fetchStep r) ([], none)).1 = [] ∧
          (ids.foldl (fetchStep r) ([], none)).2 ≠ none := by
        refine ⟨hfold.1, ?_⟩
        rw [he]
        exact fun hcon => Option.noConfusion hcon
      rw [hF, if_pos hc]
      refine ⟨hfold.1, ?_⟩
      rw [he]
      exact fun hcon => Option.noConfusion hcon
    · rw [hF, hF2]
      have hgoal := fetchFold_store_patch r ids [] none none
      by_cases hc1 : (ids.foldl (fetchStep r) ([], none)).1 = [] ∧
          (ids.foldl (fetchStep r) ([], none)).2 ≠ none
      · rw [if_pos hc1]
        by_cases hc2 : (ids.foldl (fetchStep (okRemote r)) ([], none)).1 = [] ∧
            (ids.foldl (fetchStep (okRemote r)) ([], none)).2 ≠ none
        · rw [if_pos hc2]
          exact hgoal
        · rw [if_neg hc2]
          exact hgoal
      · rw [if_neg hc1]
        by_cases hc2 : (ids.foldl (fetchStep (okRemote r)) ([], none)).1 = [] ∧
            (ids.foldl (fetchStep (okRemote r)) ([], none)).2 ≠ none
        · rw [if_pos hc2]
          exact hgoal
        · rw [if_neg hc2]
          exact hgoal

/-- Closed instantiation of `claim_C8`: one fetched event suppresses the
error; a total failure surfaces one; failures never change the store. -/
theorem claim_C8_witness :
    (FetchAllMonthsEvents true ["primary"] oneRemote).2 = none ∧
    (FetchAllMonthsEvents true ["a"] allFailRemote).1 = [] ∧
    (FetchAllMonthsEvents true ["a"] allFailRemote).2 ≠ none ∧
    (FetchAllMonthsEvents true ["a", "b"] failRemote).1
      = (FetchAllMonthsEvents true ["a", "b"] (okRemote failRemote)).1 :=
  ⟨(claim_C8 ["primary"] oneRemote).1 (by decide),
   ((claim_C8 ["a"] allFailRemote).2.2.1 (by decide)
      (fun id _ => ⟨"down", rfl⟩)).1,
   ((claim_C8 ["a"] allFailRemote).2.2.1 (by decide)
      (fun id _ => ⟨"down", rfl⟩)).2,
   (claim_C8 ["a", "b"] failRemote).2.2.2⟩

/-! ## Claim C9: month-picker digit entry -/

/-- Appending one rune always leaves the two-character window nonempty. -/
theorem lastTwo_append_ne_nil (l : List Char) (c : Char) :
    lastTwo (l ++ [c]) ≠ [] := by
  unfold lastTwo
  split
  next h =>
    intro hcon
    have hlen := congrArg List.length hcon
    rw [List.length_drop] at hlen
    simp only [List.length_nil] at hlen
    omega
  next h =>
    intro hcon
    simp at hcon

/-- One digit keystroke in Month mode: the buffer becomes the last two
characters of the old buffer plus the digit, and the cursor is re-derived
from re-parsing that buffer, moving only on a parse in `1..12`. -/
theorem handleMonthRunes_digit (p : pickerState) (c : Char)
    (hc : c.isDigit = true) :
    handleMonthRunes p [c] =
      { p with
        monthBuffer := lastTwo (p.monthBuffer ++ [c])
        monthCursor :=
          match Atoi (lastTwo (p.monthBuffer ++ [c])) with
          | some v => if 1 ≤ v ∧ v ≤ 12 then v - 1 else p.monthCursor
          | none => p.monthCursor } := by
  have hne := lastTwo_append_ne_nil p.monthBuffer c
  simp only [handleMonthRunes, List.foldl_cons, List.foldl_nil]
  rw [if_pos hc, if_neg hne]
  cases hA : Atoi (lastTwo (p.monthBuffer ++ [c])) with
  | none => rfl
  | some v =>
    dsimp only
    by_cases hv : 1 ≤ v ∧ v ≤ 12
    · rw [if_pos hv, if_pos hv]
    · rw [if_neg hv, if_neg hv]

/-- The cursor after one digit keystroke in Month mode, as a function of
the re-parsed buffer. -/
theorem handleMonthRunes_cursor (p : pickerState) (c : Char)
    (hc : c.isDigit = true) :
    (handleMonthRunes p [c]).monthCursor =
      match Atoi (lastTwo (p.monthBuffer ++ [c])) with
      | some v => if 1 ≤ v ∧ v ≤ 12 then v - 1 else p.monthCursor
      | none => p.monthCursor := by
  rw [handleMonthRunes_digit p c hc]

/-- C9: in Month mode each typed digit appends to the buffer truncated to
its last two characters, the buffer is re-parsed after each keystroke, a
parse in `1..12` sets the cursor to the value minus one, an out-of-range
parse leaves the cursor unchanged; from an empty buffer "0","3" yields
cursor 2, "1" yields cursor 0, and the subsequent "3" (forming "13") is
ignored. -/
theorem claim_C9 (p : pickerState) (c : Char) (hc : c.isDigit = true) :
    (handleMonthRunes p [c]).monthBuffer = lastTwo (p.monthBuffer ++ [c]) ∧
    (∀ v, Atoi (lastTwo (p.monthBuffer ++ [c])) = some v →
      1 ≤ v → v ≤ 12 → (handleMonthRunes p [c]).monthCursor = v - 1) ∧
    (∀ v, Atoi (lastTwo (p.monthBuffer ++ [c])) = some v → (v < 1 ∨ 12 < v) →
      (handleMonthRunes p [c]).monthCursor = p.monthCursor) ∧
    (p.monthBuffer = [] →
      (handleMonthRunes (handleMonthRunes p ['0']) ['3']).monthCursor = 2 ∧
      (handleMonthRunes p ['1']).monthCursor = 0 ∧
      (handleMonthRunes (handleMonthRunes p ['1']) ['3']).monthCursor
        = (handleMonthRunes p ['1']).monthCursor) := by
  refine ⟨?_, ?_, ?_, ?_⟩
  · rw [handleMonthRunes_digit p c hc]
  · intro v hA h1 h2
    rw [handleMonthRunes_cursor p c hc, hA]
    exact if_pos ⟨h1, h2⟩
  · intro v hA hv
    rw [handleMonthRunes_cursor p c hc, hA]
    exact if_neg (by omega)
  · intro hb
    obtain ⟨a, yc, mc, yb, mb⟩ := p
    replace hb : mb = [] := hb
    subst hb
    exact ⟨rfl, rfl, rfl⟩

/-- Closed instantiation of `claim_C9` on a freshly opened month picker
and the digit '5'. -/
theorem claim_C9_witness :
    (handleMonthRunes monthPicker ['5']).monthBuffer
      = lastTwo (monthPicker.monthBuffer ++ ['5']) ∧
    (handleMonthRunes monthPicker ['5']).monthCursor = 5 - 1 ∧
    (handleMonthRunes (handleMonthRunes monthPicker ['0']) ['3']).monthCursor
      = 2 ∧
    (handleMonthRunes (handleMonthRunes monthPicker ['1']) ['3']).monthCursor
      = (handleMonthRunes monthPicker ['1']).monthCursor :=
  ⟨(claim_C9 monthPicker '5' (by decide)).1,
   (claim_C9 monthPicker '5' (by decide)).2.1 5 (by decide) (by decide)
     (by decide),
   ((claim_C9 monthPicker '5' (by decide)).2.2.2 rfl).1,
   ((claim_C9 monthPicker '5' (by decide)).2.2.2 rfl).2.2⟩

/-! ## Claim C10: top-level Escape quits -/

/-- C10: with no event-detail overlay, no calendar-selection view and no
picker active, Escape produces the quit command immediately, exactly like
'q' and Ctrl+C, with no other model change and no side effect. -/
theorem claim_C10 (env : Env) (m : Model)
    (h1 : m.eventView.active = false) (h2 : m.calendarView.active = false)
    (h3 : m.picker.active = .pickerNone) :
    Update env m (.key .esc) = ⟨m, some .quit, noEff⟩ ∧
    Update env m (.key (.runes ['q'])) = ⟨m, some .quit, noEff⟩ ∧
    Update env m (.key .ctrlC) = ⟨m, some .quit, noEff⟩ := by
  obtain ⟨st, w, pk, srv, ev, cv, sy, se, cfg⟩ := m
  obtain ⟨eva, evl⟩ := ev
  obtain ⟨cva, cls, sel, cur⟩ := cv
  obtain ⟨pa, yc, mc, yb, mb⟩ := pk
  replace h1 : eva = false := h1
  replace h2 : cva = false := h2
  replace h3 : pa = pickerType.pickerNone := h3
  subst h1
  subst h2
  subst h3
  exact ⟨rfl, rfl, rfl⟩

/-- Closed instantiation of `claim_C10` on the sample model. -/
theorem claim_C10_witness :
    Update sampleEnv sampleModel (.key .esc) = ⟨sampleModel, some .quit, noEff⟩ ∧
    Update sampleEnv sampleModel (.key (.runes ['q']))
      = ⟨sampleModel, some .quit, noEff⟩ ∧
    Update sampleEnv sampleModel (.key .ctrlC)
      = ⟨sampleModel, some .quit, noEff⟩ :=
  claim_C10 sampleEnv sampleModel rfl rfl rfl

/-! ## Claim C6: applying the calendar selection -/

/-- C6 (code bug): in the fixture `m6` the calendar-selection view is
open, every calendar is toggled off, the service is connected and no sync
is in flight.  Pressing 'a' computes the fallback selection `["primary"]`,
persists it, clears the disk cache, closes the view and sets the syncing
flag — but the returned command is `none`: the handler communicates
`return true` to `Update`, which answers `return m, nil`, so no sync is
ever scheduled even though none was in flight, contradicting the claimed
"schedules a sync" (and README's "apply changes and sync events").  The
stuck `syncing` flag then also blocks `s`/`S` and year-step syncs. -/
theorem claim_C6 :
    (Update sampleEnv m6 (.key (.runes ['a']))).model.config = ⟨["primary"]⟩ ∧
    (Update sampleEnv m6 (.key (.runes ['a']))).effects.savedConfig
      = some ⟨["primary"]⟩ ∧
    (Update sampleEnv m6 (.key (.runes ['a']))).effects.clearedCache = true ∧
    (Update sampleEnv m6 (.key (.runes ['a']))).model.calendarView.active
      = false ∧
    m6.hasSrv = true ∧
    m6.syncing = false ∧
    (Update sampleEnv m6 (.key (.runes ['a']))).model.syncing = true ∧
    (Update sampleEnv m6 (.key (.runes ['a']))).cmd = none := by
  decide

/-! ## Claim C7: year-step cache-or-fetch -/

/-- `clampDay` only moves the day. -/
theorem clampDay_year (s : calendarState) : (clampDay s).year = s.year :=
  (clampDay_spec s).1

/-- `clampDay` keeps the event store. -/
theorem clampDay_events (s : calendarState) :
    (clampDay s).events = s.events :=
  (clampDay_spec s).2.2.1

/-- Full characterization of the year-step branch: the trigger of the
cache-or-fetch sequence is the destination year differing from the
**wall-clock** year `time.Now().Year()`; when triggered, a present cache
record is adopted regardless of freshness, an absent one clears the store
and starts a sync exactly when the service is live and none is in
flight. -/
theorem yearStep_spec (env : Env) (m : Model) (delta : Int) :
    (yearStep env m delta).model.state.year = (adjustYear m.state delta).year ∧
    ((adjustYear m.state delta).year = env.nowYear →
      (yearStep env m delta).model.state.events = m.state.events ∧
      (yearStep env m delta).cmd = none) ∧
    ((adjustYear m.state delta).year ≠ env.nowYear →
      (∀ es,
        (LoadEventsCache env.disk env.nowNanos (adjustYear m.state delta).year).1
          = some es →
        (yearStep env m delta).model.state.events = es ∧
        (yearStep env m delta).cmd = none) ∧
      ((LoadEventsCache env.disk env.nowNanos (adjustYear m.state delta).year).1
          = none →
        (yearStep env m delta).model.state.events = [] ∧
        ((m.hasSrv && !m.syncing) = true →
          (yearStep env m delta).cmd
            = some (.sync m.config.calendarIDs (adjustYear m.state delta).year) ∧
          (yearStep env m delta).model.syncing = true) ∧
        ((m.hasSrv && !m.syncing) = false →
          (yearStep env m delta).cmd = none ∧
          (yearStep env m delta).model.syncing = m.syncing))) := by
  unfold yearStep
  by_cases hy : (adjustYear m.state delta).year ≠ env.nowYear
  · rw [if_pos hy]
    cases hL :
        (LoadEventsCache env.disk env.nowNanos (adjustYear m.state delta).year).1 with
    | some cached =>
      refine ⟨?_, ?_, ?_⟩
      · exact clampDay_year _
      · intro hcon
        exact absurd hcon hy
      · intro _
        refine ⟨?_, ?_⟩
        · intro es hes
          have hes' : cached = es := Option.some.inj hes
          subst hes'
          exact ⟨clampDay_events _, rfl⟩
        · intro hcon
          exact Option.noConfusion hcon
    | none =>
      by_cases hs : (m.hasSrv && !m.syncing) = true
      · rw [if_pos hs]
        refine ⟨rfl, ?_, ?_⟩
        · intro hcon
          exact absurd hcon hy
        · intro _
          refine ⟨?_, ?_⟩
          · intro es hes
            exact Option.noConfusion hes
          · intro _
            refine ⟨rfl, ?_, ?_⟩
            · intro _
              exact ⟨rfl, rfl⟩
            · intro hcon
              rw [hs] at hcon
              exact Bool.noConfusion hcon
      · rw [if_neg hs]
        have hs' : (m.hasSrv && !m.syncing) = false := by
          cases hb : (m.hasSrv && !m.syncing) with
          | true => exact absurd hb hs
          | false => rfl
        refine ⟨clampDay_year _, ?_, ?_⟩
        · intro hcon
          exact absurd hcon hy
        · intro _
          refine ⟨?_, ?_⟩
          · intro es hes
            exact Option.noConfusion hes
          · intro _
            refine ⟨clampDay_events _, ?_, ?_⟩
            · intro hcon
              rw [hs'] at hcon
              exact Bool.noConfusion hcon
            · intro _
              exact ⟨rfl, rfl⟩
  · rw [if_neg hy]
    refine ⟨clampDay_year _, ?_, ?_⟩
    · intro _
      have hev : (adjustYear m.state delta).events = m.state.events :=
        adjustYear_events m.state delta
      refine ⟨?_, rfl⟩
      show (clampDay (adjustYear m.state delta)).events = m.state.events
      rw [clampDay_events]
      exact hev
    · intro hcon
      exact absurd hcon hy

/-- C7 (counterexample): the clock year is 2024, the model displays 2025
with the 2025 store `e25`, and the disk cache holds a 2024 record `e24`.
Stepping back to 2024 — a destination that differs from the year whose
events are loaded — neither consults the cache nor syncs: the 2025 events
are kept verbatim and no command is issued, because the code compares the
destination against `time.Now().Year()`, not against the loaded-events
year. -/
theorem claim_C7_counterexample :
    (Update env7 m7 (.key (.runes ['P']))).model.state.year = 2024 ∧
    env7.disk = some cache24 ∧
    cache24.year = 2024 ∧
    m7.state.events = e25 ∧
    e25 ≠ e24 ∧
    (Update env7 m7 (.key (.runes ['P']))).model.state.events = e25 ∧
    (Update env7 m7 (.key (.runes ['P']))).cmd = none := by
  decide

/-- C7 (amended): a year step runs the cache-or-fetch sequence exactly
when the destination year differs from the **current wall-clock year**
(`time.Now().Year()`) — not from the year whose events are currently
loaded.  When it runs: a present cache record for the destination year is
adopted regardless of freshness; an absent one clears the store and
starts a sync for that year iff the service is live and no sync is in
flight. -/
theorem claim_C7 (env : Env) (m : Model) (k : Key) (delta : Int)
    (hk : (k = .runes ['N'] ∧ delta = 1) ∨ (k = .runes ['P'] ∧ delta = -1))
    (h1 : m.eventView.active = false) (h2 : m.calendarView.active = false)
    (h3 : m.picker.active = .pickerNone) :
    Update env m (.key k) = yearStep env m delta ∧
    ((adjustYear m.state delta).year = env.nowYear →
      (yearStep env m delta).model.state.events = m.state.events ∧
      (yearStep env m delta).cmd = none) ∧
    ((adjustYear m.state delta).year ≠ env.nowYear →
      (∀ es,
        (LoadEventsCache env.disk env.nowNanos (adjustYear m.state delta).year).1
          = some es →
        (yearStep env m delta).model.state.events = es ∧
        (yearStep env m delta).cmd = none) ∧
      ((LoadEventsCache env.disk env.nowNanos (adjustYear m.state delta).year).1
          = none →
        (yearStep env m delta).model.state.events = [] ∧
        ((m.hasSrv && !m.syncing) = true →
          (yearStep env m delta).cmd
            = some (.sync m.config.calendarIDs (adjustYear m.state delta).year) ∧
          (yearStep env m delta).model.syncing = true) ∧
        ((m.hasSrv && !m.syncing) = false →
          (yearStep env m delta).cmd = none ∧
          (yearStep env m delta).model.syncing = m.syncing))) := by
  obtain ⟨st, w, pk, srv, ev, cv, sy, se, cfg⟩ := m
  obtain ⟨eva, evl⟩ := ev
  obtain ⟨cva, cls, sel, cur⟩ := cv
  obtain ⟨pa, yc, mc, yb, mb⟩ := pk
  replace h1 : eva = false := h1
  replace h2 : cva = false := h2
  replace h3 : pa = pickerType.pickerNone := h3
  subst h1
  subst h2
  subst h3
  refine ⟨?_, (yearStep_spec _ _ _).2.1, (yearStep_spec _ _ _).2.2⟩
  rcases hk with ⟨hk1, hd⟩ | ⟨hk1, hd⟩ <;> subst hk1 <;> subst hd <;> rfl

/-- Closed instantiation of `claim_C7` on the fixture: a `P` keystroke in
`env7`/`m7` is exactly the year-step branch. -/
theorem claim_C7_witness :
    Update env7 m7 (.key (.runes ['P'])) = yearStep env7 m7 (-1) ∧
    ((adjustYear m7.state (-1)).year = env7.nowYear →
      (yearStep env7 m7 (-1)).model.state.events = m7.state.events ∧
      (yearStep env7 m7 (-1)).cmd = none) :=
  ⟨(claim_C7 env7 m7 (.runes ['P']) (-1) (Or.inr ⟨rfl, rfl⟩) rfl rfl rfl).1,
   (claim_C7 env7 m7 (.runes ['P']) (-1) (Or.inr ⟨rfl, rfl⟩) rfl rfl rfl).2.1⟩

end ViberCal
